import Mathlib

/-!
Verification model of the llm-os MCP tool-orchestration core.

Shallow embedding of:
- `src/llm_os/src/llm_os/mcp/types/tools.py` (ToolCall, ToolResult, Tool, parameters)
- `src/llm_os/src/llm_os/mcp/orchestrator/security.py` (SecurityManager)
- `src/llm_os/src/llm_os/mcp/orchestrator/tool_router.py` (ToolRouter)
- `src/llm_os/src/llm_os/mcp/orchestrator/server_manager.py` (ServerManager)
- `src/llm_os/src/llm_os/mcp/orchestrator/orchestrator.py` (MCPOrchestrator)
- `src/src/llm_os/mcp/_archived_servers/base.py` (BaseMCPServer.call_tool)
- `src/src/llm_os/mcp/client/external_server.py` (ExternalMCPServer)

Python dicts are modelled as association lists with unique string keys in
insertion order; Python sets of operation-key strings as duplicate-free
lists of strings.  Asynchronous calls are modelled by explicit outcome
values: a call either returns, raises an exception, or never completes
(`hangs`).  Wall-clock time is a natural-number parameter threaded where
`datetime.now()` is read.
-/

namespace LlmOs

/-- JSON-compatible Python values used as tool arguments. -/
inductive PyValue : Type where
  | str (s : String)
  | int (n : Int)
  | bool (b : Bool)
  | list (xs : List PyValue)
  | dict (xs : List (String × PyValue))
  | null

/-- Whether `hash(value)` is defined: Python lists and dicts are unhashable. -/
def PyValue.hashable : PyValue → Bool
  | .list _ => false
  | .dict _ => false
  | _ => true

/-- The Python type name, as it appears in `TypeError: unhashable type: '...'`. -/
def PyValue.typeName : PyValue → String
  | .str _ => "str"
  | .int _ => "int"
  | .bool _ => "bool"
  | .list _ => "list"
  | .dict _ => "dict"
  | .null => "NoneType"

mutual

/-- Python `repr` of a value (escape sequences inside nested strings are
not modelled; no claim depends on them). -/
def PyValue.pyRepr : PyValue → String
  | .str s => "'" ++ s ++ "'"
  | .int n => toString n
  | .bool b => if b then "True" else "False"
  | .list xs => "[" ++ PyValue.pyReprList xs ++ "]"
  | .dict xs => "\x7b" ++ PyValue.pyReprDict xs ++ "\x7d"
  | .null => "None"

/-- Comma-separated reprs of list elements. -/
def PyValue.pyReprList : List PyValue → String
  | [] => ""
  | [x] => x.pyRepr
  | x :: y :: rest => x.pyRepr ++ ", " ++ PyValue.pyReprList (y :: rest)

/-- Comma-separated reprs of dict items. -/
def PyValue.pyReprDict : List (String × PyValue) → String
  | [] => ""
  | [(k, v)] => "'" ++ k ++ "': " ++ v.pyRepr
  | (k, v) :: q :: rest =>
    "'" ++ k ++ "': " ++ v.pyRepr ++ ", " ++ PyValue.pyReprDict (q :: rest)

end

/-- Python `str` of a value: identity on strings, `repr` otherwise. -/
def PyValue.pyStr : PyValue → String
  | .str s => s
  | v => v.pyRepr

/-- Python `value == some_string`, as used by list membership against a
`list[str]`: true only for the equal string. -/
def PyValue.eqStr : PyValue → String → Bool
  | .str s, e => s = e
  | _, _ => false

/-- A Python keyword-argument dict: association list in insertion order,
keys unique. -/
abbrev Args := List (String × PyValue)

/-- Exceptions that flow through the dispatch path.  `timeoutError` is
`asyncio.TimeoutError`; every other `Exception` is carried with its
`str(e)` rendering (`typeError` kept distinguishable for the claims). -/
inductive PyExn : Type where
  | typeError (msg : String)
  | timeoutError (msg : String)
  | exn (msg : String)
deriving DecidableEq, Repr

/-- `str(e)` of an exception. -/
def PyExn.toStr : PyExn → String
  | .typeError m => m
  | .timeoutError m => m
  | .exn m => m

/-- `tools.py` `ToolContentType`. -/
inductive ToolContentType : Type where
  | text
  | image
  | resource
  | error
deriving DecidableEq, Repr

/-- `tools.py` `ToolContent` (binary payload carried as a string). -/
structure ToolContent where
  type : ToolContentType
  text : Option String := Option.none
  data : Option String := Option.none
  mime_type : Option String := Option.none

/-- `ToolContent.text_content`. -/
def ToolContent.text_content (t : String) : ToolContent :=
  { type := .text, text := some t }

/-- `ToolContent.error_content`. -/
def ToolContent.error_content (e : String) : ToolContent :=
  { type := .error, text := some e }

/-- `tools.py` `ToolResult`. -/
structure ToolResult where
  success : Bool
  content : List ToolContent
  is_error : Bool := false
  error_message : Option String := Option.none
  metadata : List (String × PyValue) := []

/-- `ToolResult.success_result`. -/
def ToolResult.success_result (t : String) : ToolResult :=
  { success := true, content := [ToolContent.text_content t] }

/-- `ToolResult.error_result`. -/
def ToolResult.error_result (e : String) : ToolResult :=
  { success := false
    content := [ToolContent.error_content e]
    is_error := true
    error_message := some e }

/-- `tools.py` `ParameterType`. -/
inductive ParameterType : Type where
  | string
  | number
  | integer
  | boolean
  | array
  | object
deriving DecidableEq, Repr

/-- `ParameterType.value`: the JSON-schema type string. -/
def ParameterType.value : ParameterType → String
  | .string => "string"
  | .number => "number"
  | .integer => "integer"
  | .boolean => "boolean"
  | .array => "array"
  | .object => "object"

/-- `tools.py` `ToolParameter`. -/
structure ToolParameter where
  name : String
  type : ParameterType
  description : String := ""
  required : Bool := true
  default : Option PyValue := Option.none
  enum : Option (List String) := Option.none
  items : Option (List (String × PyValue)) := Option.none
  properties : Option (List (String × PyValue)) := Option.none

/-- `tools.py` `Tool` (permission_level is a plain string in the source). -/
structure Tool where
  name : String
  description : String := ""
  parameters : List ToolParameter := []
  server_id : String := ""
  requires_confirmation : Bool := false
  permission_level : String := "read"

/-- `tools.py` `ToolCall`. -/
structure ToolCall where
  id : String
  name : String
  arguments : Args

/-- Dict lookup: `arguments.get(k)` / `k in arguments`. -/
def lookupArg (args : Args) (k : String) : Option PyValue :=
  match args with
  | [] => Option.none
  | (k', v) :: rest => if k' = k then some v else lookupArg rest k

/-- `Tool._check_type`: `isinstance` checks; Python `bool` is a subclass of
`int`, so booleans pass the `integer` and `number` checks. -/
def check_type (v : PyValue) (expected : ParameterType) : Bool :=
  match expected with
  | .string => match v with | .str _ => true | _ => false
  | .number => match v with | .int _ => true | .bool _ => true | _ => false
  | .integer => match v with | .int _ => true | .bool _ => true | _ => false
  | .boolean => match v with | .bool _ => true | _ => false
  | .array => match v with | .list _ => true | _ => false
  | .object => match v with | .dict _ => true | _ => false

/-- The regex class `\s`, also Python's whitespace set at ASCII scope. -/
def isSpaceChar (c : Char) : Bool :=
  c = ' ' || c = '\t' || c = '\n' || c = '\r' || c = '\x0b' || c = '\x0c'

/-- ASCII `str.lower` on one character (the subjects of every claim are
ASCII, so the Unicode cases of Python `str.lower` are not modelled). -/
def charLower (c : Char) : Char :=
  if 'A' ≤ c && c ≤ 'Z' then Char.ofNat (c.toNat + 32) else c

/-- `str.lower`. -/
def strLower (s : String) : String :=
  String.mk (s.data.map charLower)

/-- `str.strip()`. -/
def strStrip (s : String) : String :=
  String.mk (((s.data.dropWhile isSpaceChar).reverse.dropWhile isSpaceChar).reverse)

/-- Boolean list-prefix test. -/
def listIsPre : List Char → List Char → Bool
  | [], _ => true
  | _ :: _, [] => false
  | c :: cs, d :: ds => c = d && listIsPre cs ds

/-- `str.startswith`. -/
def strStarts (s pre : String) : Bool :=
  listIsPre pre.data s.data

/-- `str.endswith`. -/
def strEnds (s suf : String) : Bool :=
  listIsPre suf.data.reverse s.data.reverse

/-- `sep.join(strings)`. -/
def strJoin (sep : String) : List String → String
  | [] => ""
  | [x] => x
  | x :: y :: rest => x ++ sep ++ strJoin sep (y :: rest)

/-- Lexicographic order on code points, used only to canonicalize. -/
def listLexLe : List Char → List Char → Bool
  | [], _ => true
  | _ :: _, [] => false
  | c :: cs, d :: ds =>
    if c.toNat < d.toNat then true
    else if d.toNat < c.toNat then false
    else listLexLe cs ds

/-- See `listLexLe`. -/
def strLeB (s t : String) : Bool :=
  listLexLe s.data t.data

/-- `s[:n]`. -/
def strTake (s : String) (n : Nat) : String :=
  String.mk (s.data.take n)

/-- `len(s)`. -/
def strLen (s : String) : Nat :=
  s.data.length

/-- Python `repr` of a `list[str]`, used in the enum error message. -/
def pyStrListRepr (es : List String) : String :=
  "[" ++ strJoin ", " (es.map (fun e => "'" ++ e ++ "'")) ++ "]"

/-- One parameter of `Tool.validate_arguments`'s type-and-enum pass.
`if param.enum` is Python truthiness: `None` and the empty list are falsy. -/
def validate_one (param : ToolParameter) (args : Args) : Option String :=
  match lookupArg args param.name with
  | Option.none => Option.none
  | some value =>
    if !check_type value param.type then
      let tv := param.type.value
      some ("Invalid type for " ++ param.name ++ ": expected " ++ tv)
    else
      match param.enum with
      | some es =>
        if es ≠ [] && !(es.any (fun e => value.eqStr e)) then
          some ("Invalid value for " ++ param.name ++ ": must be one of " ++
            pyStrListRepr es)
        else Option.none
      | Option.none => Option.none

/-- `Tool.validate_arguments`: required-parameter pass, then type/enum pass,
first failure wins (the source runs the required loop fully before the type
loop). -/
def Tool.validate_arguments (tool : Tool) (args : Args) : Bool × String :=
  match tool.parameters.find? (fun p => p.required && (lookupArg args p.name).isNone) with
  | some p => (false, "Missing required parameter: " ++ p.name)
  | Option.none =>
    match tool.parameters.findSome? (fun p => validate_one p args) with
    | some msg => (false, msg)
    | Option.none => (true, "")

/-! ### Character-level models of the security regexes

`security.py` matches fixed regular expressions with `re.search`.  Each
pattern is modelled by a predicate on a suffix of the subject string;
`anySuffix` quantifies over all start positions, which is exactly
`re.search`'s unanchored semantics.  The character classes are modelled at
ASCII scope (the subjects of every claim are ASCII). -/


/-- The regex class `\w`. -/
def isWordChar (c : Char) : Bool :=
  c.isAlphanum || c = '_'

/-- Greedy `\s*`. -/
def dropSpaces (cs : List Char) : List Char :=
  cs.dropWhile isSpaceChar

/-- Greedy `\s+`: at least one space, then the remainder. -/
def spaces1 (cs : List Char) : Option (List Char) :=
  match cs with
  | c :: rest => if isSpaceChar c then some (dropSpaces rest) else Option.none
  | [] => Option.none

/-- The next character satisfies `p`. -/
def headIs (p : Char → Bool) (cs : List Char) : Bool :=
  match cs with
  | c :: _ => p c
  | [] => false

/-- Drop a literal prefix, or fail. -/
def dropLit : List Char → List Char → Option (List Char)
  | [], cs => some cs
  | l :: ls, c :: cs => if c = l then dropLit ls cs else Option.none
  | _ :: _, [] => Option.none

/-- `re.search` semantics: the pattern matches at some start position. -/
def anySuffix (p : List Char → Bool) : List Char → Bool
  | [] => p []
  | c :: cs => p (c :: cs) || anySuffix p cs

/-- Python `needle in hay` on strings. -/
def strContainsSub (needle hay : String) : Bool :=
  anySuffix (fun cs => (dropLit needle.toList cs).isSome) hay.toList

/-- The backtick character (96). -/
def backtick : Char := Char.ofNat 96

/-- `;\s*\w+`. -/
def matchSemiChain (cs : List Char) : Bool :=
  match cs with
  | ';' :: rest => headIs isWordChar (dropSpaces rest)
  | _ => false

/-- `\|\s*\w+`. -/
def matchPipeChain (cs : List Char) : Bool :=
  match cs with
  | '|' :: rest => headIs isWordChar (dropSpaces rest)
  | _ => false

/-- `&&\s*\w+`. -/
def matchAndChain (cs : List Char) : Bool :=
  match cs with
  | '&' :: '&' :: rest => headIs isWordChar (dropSpaces rest)
  | _ => false

/-- `\|\|\s*\w+`. -/
def matchOrChain (cs : List Char) : Bool :=
  match cs with
  | '|' :: '|' :: rest => headIs isWordChar (dropSpaces rest)
  | _ => false

/-- `\$\([^)]+\)`. -/
def matchCmdSubst (cs : List Char) : Bool :=
  match cs with
  | '$' :: '(' :: c :: rest => c ≠ ')' && rest.contains ')'
  | _ => false

/-- The backtick-substitution pattern: backtick, one or more non-backtick
characters, backtick. -/
def matchBacktickSubst (cs : List Char) : Bool :=
  match cs with
  | c :: d :: rest => c = backtick && d ≠ backtick && (d :: rest).contains backtick
  | _ => false

/-- `>\s*[/~]`. -/
def matchRedirOut (cs : List Char) : Bool :=
  match cs with
  | '>' :: rest => headIs (fun c => c = '/' || c = '~') (dropSpaces rest)
  | _ => false

/-- `<\s*[/~]`. -/
def matchRedirIn (cs : List Char) : Bool :=
  match cs with
  | '<' :: rest => headIs (fun c => c = '/' || c = '~') (dropSpaces rest)
  | _ => false

/-- The eight injection patterns of `SecurityManager._contains_injection`,
in source order. -/
def injectionPatterns : List (List Char → Bool) :=
  [matchSemiChain, matchPipeChain, matchAndChain, matchOrChain,
   matchCmdSubst, matchBacktickSubst, matchRedirOut, matchRedirIn]

/-- `SecurityManager._contains_injection`: at least two of the patterns
find a match. -/
def contains_injection (value : String) : Bool :=
  let cs := value.toList
  decide (2 ≤ (injectionPatterns.filter (fun p => anySuffix p cs)).length)

/-- `rm\s+-[rf]+\s+/`. -/
def matchRmRf (cs : List Char) : Bool :=
  match dropLit "rm".toList cs with
  | some r1 =>
    match spaces1 r1 with
    | some r2 =>
      match r2 with
      | '-' :: r3 =>
        let cls := r3.takeWhile (fun c => c = 'r' || c = 'f')
        let r4 := r3.dropWhile (fun c => c = 'r' || c = 'f')
        !cls.isEmpty &&
          (match spaces1 r4 with
           | some r5 => headIs (fun c => c = '/') r5
           | Option.none => false)
      | _ => false
    | Option.none => false
  | Option.none => false

/-- `dd\s+if=/dev/(zero|random)`. -/
def matchDdZero (cs : List Char) : Bool :=
  match dropLit "dd".toList cs with
  | some r1 =>
    match spaces1 r1 with
    | some r2 =>
      match dropLit "if=/dev/".toList r2 with
      | some r3 =>
        (dropLit "zero".toList r3).isSome || (dropLit "random".toList r3).isSome
      | Option.none => false
    | Option.none => false
  | Option.none => false

/-- `mkfs\.`. -/
def matchMkfs (cs : List Char) : Bool :=
  (dropLit "mkfs.".toList cs).isSome

/-- `chmod\s+-R\s+777\s+/` (the source matches it against an already
lowercased subject, so the uppercase `R` can in fact never match). -/
def matchChmod777 (cs : List Char) : Bool :=
  match dropLit "chmod".toList cs with
  | some r1 =>
    match spaces1 r1 with
    | some r2 =>
      match dropLit "-R".toList r2 with
      | some r3 =>
        match spaces1 r3 with
        | some r4 =>
          match dropLit "777".toList r4 with
          | some r5 =>
            match spaces1 r5 with
            | some r6 => headIs (fun c => c = '/') r6
            | Option.none => false
          | Option.none => false
        | Option.none => false
      | Option.none => false
    | Option.none => false
  | Option.none => false

/-- `>\s*/dev/sd[a-z]`. -/
def matchDevSd (cs : List Char) : Bool :=
  match cs with
  | '>' :: rest =>
    match dropLit "/dev/sd".toList (dropSpaces rest) with
    | some r => headIs (fun c => 'a' ≤ c && c ≤ 'z') r
    | Option.none => false
  | _ => false

/-- `\|\s*(ba)?sh`. -/
def matchPipeSh (cs : List Char) : Bool :=
  match cs with
  | '|' :: rest =>
    let r := dropSpaces rest
    (dropLit "bash".toList r).isSome || (dropLit "sh".toList r).isSome
  | _ => false

/-- `eval\s+`. -/
def matchEval (cs : List Char) : Bool :=
  match dropLit "eval".toList cs with
  | some rest => headIs isSpaceChar rest
  | Option.none => false

/-- The pattern of a backtick, any characters other than newline, and a
second backtick. -/
def matchBacktickAny (cs : List Char) : Bool :=
  match cs with
  | c :: rest => c = backtick && (rest.takeWhile (fun d => d ≠ '\n')).contains backtick
  | _ => false

/-- `\$\(`. -/
def matchDollarOpen (cs : List Char) : Bool :=
  match cs with
  | '$' :: '(' :: _ => true
  | _ => false

/-- The nine dangerous-command patterns of
`SecurityManager._is_blocked_command`, in source order. -/
def dangerousPatterns : List (List Char → Bool) :=
  [matchRmRf, matchDdZero, matchMkfs, matchChmod777, matchDevSd,
   matchPipeSh, matchEval, matchBacktickAny, matchDollarOpen]

/-! ### Security manager (`security.py`) -/

/-- `security.py` `SecurityAction`. -/
inductive SecurityAction : Type where
  | allow
  | deny
  | confirm
  | sandbox
deriving DecidableEq, Repr

/-- `security.py` `SecurityPolicy`, with the source's default field values. -/
structure SecurityPolicy where
  require_confirmation_for_write : Bool := true
  require_confirmation_for_execute : Bool := true
  require_confirmation_for_system : Bool := true
  require_confirmation_for_dangerous : Bool := true
  sandbox_enabled : Bool := true
  sandbox_allowed_paths : List String := []
  sandbox_blocked_paths : List String :=
    ["/etc/passwd", "/etc/shadow", "/etc/sudoers", "/root", "/boot", "/sys",
     "/proc/kcore"]
  blocked_commands : List String :=
    ["rm -rf /", "dd if=/dev/zero", "mkfs", ":()\x7b:|:&\x7d;:",
     "chmod -R 777 /", "wget * | sh", "curl * | sh"]
  blocked_extensions : List String :=
    [".exe", ".dll", ".bat", ".cmd", ".vbs", ".ps1"]
  allow_network_access : Bool := true
  blocked_domains : List String := []
  max_operations_per_minute : Nat := 60
  max_file_operations_per_minute : Nat := 30

/-- `security.py` `SecurityContext`.  The confirmed/denied operation sets
hold operation-key strings (see `operation_key`). -/
structure SecurityContext where
  user_id : String := "default"
  session_id : String := ""
  trust_level : Int := 0
  confirmed_operations : List String := []
  denied_operations : List String := []
  operation_count : Nat := 0
  file_operation_count : Nat := 0

/-- Python `set.add` on an operation-key set. -/
def addOpKey (s : List String) (k : String) : List String :=
  if s.contains k then s else s ++ [k]

/-- `security.py` `SecurityCheckResult`. -/
structure SecurityCheckResult where
  action : SecurityAction
  reason : Option String := Option.none
  requires_confirmation : Bool := false
  confirmation_message : Option String := Option.none
  modified_arguments : Option Args := Option.none

/-- One audit-log row of `SecurityManager._audit_log_operation` (the
wall-clock timestamp is not modelled). -/
structure AuditEntry where
  tool : String
  server : String
  permission_level : String
  arguments : Args
  status : String
  details : Option String
  user_id : String
  session_id : String

/-- Observable events of one dispatch, used to state which collaborators a
code path invokes. -/
inductive Event : Type where
  | securityChecked (tool : String)
  | confirmRequested (tool : String) (message : String)
  | audited (status : String)
  | executorInvoked (args : Args)
  | handlerRan (tool : String) (args : Args)
  | externalCalled (server : String) (tool : String)

/-- Event classifiers. -/
def Event.isConfirmRequested : Event → Bool
  | .confirmRequested _ _ => true
  | _ => false

def Event.isSecurityChecked : Event → Bool
  | .securityChecked _ => true
  | _ => false

def Event.isAudited : Event → Bool
  | .audited _ => true
  | _ => false

def Event.isExecutorInvoked : Event → Bool
  | .executorInvoked _ => true
  | _ => false

def Event.isHandlerRan : Event → Bool
  | .handlerRan _ _ => true
  | _ => false

/-- Outcome of awaiting one asynchronous callable: it returns, raises, or
never completes. -/
inductive ExecOutcome : Type where
  | ok (r : ToolResult)
  | raises (e : PyExn)
  | hangs

/-- An executor as handed to `execute_with_security`: invoked as
`executor(**arguments)`; may emit events (for example when a registered
tool handler actually runs). -/
abbrev Executor := Args → ExecOutcome × List Event

/-- Outcome of awaiting the confirmation handler. -/
inductive ConfirmOutcome : Type where
  | answer (b : Bool)
  | raises (e : PyExn)
  | hangs

/-- The external confirmation handler `(title, message) → bool`. -/
abbrev ConfirmHandler := String → String → ConfirmOutcome

/-- Outcome of a modelled `async` function: final state, emitted events,
and a returned value, a raised exception, or divergence. -/
inductive Outcome (σ : Type) (α : Type) : Type where
  | ret (st : σ) (evs : List Event) (a : α)
  | raises (st : σ) (evs : List Event) (e : PyExn)
  | hangs (evs : List Event)

/-- The returned value of an outcome, when it returns. -/
def Outcome.result? {σ α : Type} : Outcome σ α → Option α
  | .ret _ _ a => some a
  | _ => Option.none

/-- The final state of an outcome, when it completes. -/
def Outcome.state? {σ α : Type} : Outcome σ α → Option σ
  | .ret st _ _ => some st
  | .raises st _ _ => some st
  | .hangs _ => Option.none

/-- The emitted events of an outcome. -/
def Outcome.events {σ α : Type} : Outcome σ α → List Event
  | .ret _ evs _ => evs
  | .raises _ evs _ => evs
  | .hangs evs => evs

/-- `security.py` `SecurityManager` state.  `resolve` models
`pathlib.Path(p).resolve()`, which depends on the process's filesystem;
`Option.none` models resolution raising an exception. -/
structure SecurityManager where
  policy : SecurityPolicy
  confirmation_handler : Option ConfirmHandler
  context : SecurityContext
  audit_log : List AuditEntry
  resolve : String → Option String

/-- The operation-key string
`f"\x7btool.name\x7d:\x7bhash(frozenset(arguments.items()))\x7d"`.
`hash(frozenset(...))` is modelled by the comma-joined sorted item
renderings, which is invariant under dict-key reordering, as the real hash
is; hash collisions are assumed absent.  Constructing the frozenset raises
`TypeError` when some value is unhashable. -/
def insertSorted (s : String) : List String → List String
  | [] => [s]
  | t :: ts => if strLeB s t then s :: t :: ts else t :: insertSorted s ts

/-- Rendering of one dict item inside the key. -/
def itemRepr (p : String × PyValue) : String :=
  "'" ++ p.1 ++ "': " ++ p.2.pyRepr

/-- See `insertSorted`; the canonical stand-in for the frozenset hash. -/
def frozensetKey (args : Args) : String :=
  strJoin "," ((args.map itemRepr).foldr insertSorted [])

/-- `f"\x7btool.name\x7d:\x7bhash(frozenset(arguments.items()))\x7d"`, or the
`TypeError` that computing it raises. -/
def operation_key (tool : Tool) (args : Args) : Except PyExn String :=
  match args.find? (fun p => !p.2.hashable) with
  | some p => .error (.typeError ("unhashable type: '" ++ p.2.typeName ++ "'"))
  | Option.none => .ok (tool.name ++ ":" ++ frozensetKey args)

/-- The operation key disregarding hashability, for positions the source
reaches only after a successful `check_tool_permission`. -/
def operationKeyOf (tool : Tool) (args : Args) : String :=
  tool.name ++ ":" ++ frozensetKey args

/-- `SecurityManager._check_permission_level`. -/
def SecurityManager.check_permission_level (sm : SecurityManager) (tool : Tool) :
    SecurityCheckResult :=
  let level := tool.permission_level
  if level = "dangerous" then
    if sm.context.trust_level < 3 then
      { action := .deny, reason := some "Dangerous operations require admin trust level" }
    else if sm.policy.require_confirmation_for_dangerous then
      { action := .confirm, requires_confirmation := true }
    else { action := .allow }
  else if level = "system" then
    if sm.context.trust_level < 2 then
      { action := .deny, reason := some "System operations require trusted level" }
    else if sm.policy.require_confirmation_for_system then
      { action := .confirm, requires_confirmation := true }
    else { action := .allow }
  else if level = "execute" then
    if sm.policy.require_confirmation_for_execute then
      { action := .confirm, requires_confirmation := true }
    else { action := .allow }
  else if level = "write" then
    if sm.policy.require_confirmation_for_write then
      { action := .confirm, requires_confirmation := true }
    else { action := .allow }
  else { action := .allow }

/-- `SecurityManager._is_blocked_path`. -/
def SecurityManager.is_blocked_path (sm : SecurityManager) (path : String) : Bool :=
  match sm.resolve path with
  | Option.none => true
  | some p =>
    if sm.policy.sandbox_blocked_paths.any (fun b => strStarts p b || p = b) then
      true
    else if sm.policy.sandbox_enabled && !sm.policy.sandbox_allowed_paths.isEmpty then
      !(sm.policy.sandbox_allowed_paths.any (fun a => strStarts p a))
    else false

/-- `SecurityManager._is_blocked_command`. -/
def SecurityManager.is_blocked_command (sm : SecurityManager) (command : String) : Bool :=
  let cl := strStrip (strLower command)
  sm.policy.blocked_commands.any (fun b => strContainsSub (strLower b) cl) ||
    dangerousPatterns.any (fun p => anySuffix p cl.toList)

/-- `SecurityManager._has_blocked_extension`. -/
def SecurityManager.has_blocked_extension (sm : SecurityManager) (path : String) : Bool :=
  let pl := strLower path
  sm.policy.blocked_extensions.any (fun ext => strEnds pl ext)

/-- `SecurityManager._check_arguments`: scan the argument dict in insertion
order; only string values are inspected; first denial wins. -/
def SecurityManager.check_arguments (sm : SecurityManager) : Args → SecurityCheckResult
  | [] => { action := .allow }
  | (key, value) :: rest =>
    match value with
    | .str v =>
      if sm.is_blocked_path v then
        { action := .deny, reason := some ("Access to path '" ++ v ++ "' is not allowed") }
      else if (key = "command" || key = "cmd" || key = "script") &&
          sm.is_blocked_command v then
        { action := .deny, reason := some "Command matches blocked pattern" }
      else if (key = "path" || key = "file" || key = "filename") &&
          sm.has_blocked_extension v then
        { action := .deny, reason := some "File extension not allowed" }
      else if contains_injection v then
        { action := .deny, reason := some "Potential command injection detected" }
      else sm.check_arguments rest
    | _ => sm.check_arguments rest

/-- `str(value)` truncated to 100 characters as in
`SecurityManager._build_confirmation_message`. -/
def truncatedStr (v : PyValue) : String :=
  let s := v.pyStr
  if strLen s > 100 then strTake s 97 ++ "..." else s

/-- `SecurityManager._build_confirmation_message`. -/
def build_confirmation_message (tool : Tool) (args : Args) : String :=
  let header := ["Tool: " ++ tool.name,
    "Permission Level: " ++ tool.permission_level, "Arguments:"]
  let argLines := args.map (fun p => "  " ++ p.1 ++ ": " ++ truncatedStr p.2)
  strJoin "\n" (header ++ argLines ++ ["\nDo you want to proceed?"])

/-- `SecurityManager.check_tool_permission`. -/
def SecurityManager.check_tool_permission (sm : SecurityManager) (tool : Tool)
    (args : Args) : Except PyExn SecurityCheckResult :=
  match operation_key tool args with
  | .error e => .error e
  | .ok key =>
    if sm.context.denied_operations.contains key then
      .ok { action := .deny, reason := some "Operation previously denied in this session" }
    else
      let permission_check := sm.check_permission_level tool
      if permission_check.action = .deny then .ok permission_check
      else
        let argument_check := sm.check_arguments args
        if argument_check.action = .deny then .ok argument_check
        else if tool.requires_confirmation || permission_check.requires_confirmation then
          if sm.context.confirmed_operations.contains key then
            .ok { action := .allow }
          else
            .ok { action := .confirm, requires_confirmation := true,
                  confirmation_message := some (build_confirmation_message tool args) }
        else .ok { action := .allow }

/-- `SecurityManager._audit_log_operation` (ring-buffered at 1000 entries,
truncating to the most recent 500). -/
def SecurityManager.audit_log_operation (sm : SecurityManager) (tool : Tool)
    (args : Args) (status : String) (details : Option String) : SecurityManager :=
  let entry : AuditEntry :=
    { tool := tool.name, server := tool.server_id,
      permission_level := tool.permission_level, arguments := args,
      status := status, details := details,
      user_id := sm.context.user_id, session_id := sm.context.session_id }
  let log := sm.audit_log ++ [entry]
  let log := if log.length > 1000 then log.drop (log.length - 500) else log
  { sm with audit_log := log }

/-- Python `\x7b**arguments, **modified\x7d`: right operand wins. -/
def dictMerge (args extra : Args) : Args :=
  extra.foldl
    (fun acc p =>
      if acc.any (fun q => q.1 = p.1) then
        acc.map (fun q => if q.1 = p.1 then (q.1, p.2) else q)
      else acc ++ [p])
    args

/-- The executor section of `SecurityManager.execute_with_security`
(lines 243-259): apply argument modifications, audit `executing`, await
`executor(**arguments)`, audit the outcome, and re-raise executor
exceptions. -/
def SecurityManager.runExecutor (sm : SecurityManager) (tool : Tool) (args : Args)
    (executor : Executor) (evs : List Event) : Outcome SecurityManager ToolResult :=
  let sm := sm.audit_log_operation tool args "executing" Option.none
  let evs := evs ++ [Event.audited "executing", Event.executorInvoked args]
  match executor args with
  | (.ok r, hevs) =>
    let status := if r.success then "success" else "failed"
    let sm := sm.audit_log_operation tool args status r.error_message
    .ret sm (evs ++ hevs ++ [Event.audited status]) r
  | (.raises e, hevs) =>
    let m := e.toStr
    let sm := sm.audit_log_operation tool args "error" (some m)
    .raises sm (evs ++ hevs ++ [Event.audited "error"]) e
  | (.hangs, hevs) => .hangs (evs ++ hevs)

/-- `SecurityManager.execute_with_security`. -/
def SecurityManager.execute_with_security (sm : SecurityManager) (tool : Tool)
    (args : Args) (executor : Executor) : Outcome SecurityManager ToolResult :=
  let ev0 := [Event.securityChecked tool.name]
  match sm.check_tool_permission tool args with
  | .error e => .raises sm ev0 e
  | .ok check =>
    let key := operationKeyOf tool args
    if check.action = .deny then
      let reasonStr := match check.reason with
        | some r => r
        | Option.none => "None"
      let sm := sm.audit_log_operation tool args "denied" check.reason
      .ret sm (ev0 ++ [Event.audited "denied"])
        (ToolResult.error_result ("Permission denied: " ++ reasonStr))
    else
      let afterConfirm : Outcome SecurityManager Bool :=
        if check.action = .confirm then
          match sm.confirmation_handler with
          | Option.none => .ret sm ev0 false
          | some handler =>
            let msg := match check.confirmation_message with
              | some m => m
              | Option.none => "Confirm execution?"
            let ev1 := ev0 ++ [Event.confirmRequested tool.name msg]
            match handler tool.name msg with
            | .raises e => .raises sm ev1 e
            | .hangs => .hangs ev1
            | .answer false =>
              let ctx := sm.context
              let ctx := { ctx with denied_operations := addOpKey ctx.denied_operations key }
              let sm := { sm with context := ctx }
              let sm := sm.audit_log_operation tool args "user_denied" Option.none
              .ret sm (ev1 ++ [Event.audited "user_denied"]) false
            | .answer true =>
              let ctx := sm.context
              let ctx := { ctx with confirmed_operations := addOpKey ctx.confirmed_operations key }
              let sm := { sm with context := ctx }
              .ret sm ev1 true
        else .ret sm ev0 true
      match afterConfirm with
      | .raises sm1 evs e => .raises sm1 evs e
      | .hangs evs => .hangs evs
      | .ret sm1 evs proceed =>
        if proceed then
          let args1 := match check.modified_arguments with
            | some m => dictMerge args m
            | Option.none => args
          sm1.runExecutor tool args1 executor evs
        else if check.action = .confirm && sm.confirmation_handler.isNone then
          .ret sm1 evs
            (ToolResult.error_result "Confirmation required but no handler available")
        else
          .ret sm1 evs (ToolResult.error_result "Operation cancelled by user")

/-! ### Internal servers (`_archived_servers/base.py`) -/

/-- Generic string-keyed dict lookup. -/
def lookupStr {α : Type} : List (String × α) → String → Option α
  | [], _ => Option.none
  | (k, v) :: rest, key => if k = key then some v else lookupStr rest key

/-- Python dict assignment `d[k] = v`: replace in place, else append. -/
def setStr {α : Type} : List (String × α) → String → α → List (String × α)
  | [], key, v => [(key, v)]
  | (k, w) :: rest, key, v =>
    if k = key then (k, v) :: rest else (k, w) :: setStr rest key v

/-- A registered tool handler, invoked as `handler(**arguments)`. -/
abbrev ToolHandler := Args → ExecOutcome

/-- `base.py` `RegisteredTool`. -/
structure RegisteredTool where
  tool : Tool
  handler : ToolHandler

/-- `base.py` `BaseMCPServer`: the `_tools` dict in registration order. -/
structure BaseMCPServer where
  server_id : String
  server_name : String := ""
  toolsDict : List (String × RegisteredTool)
  initialized : Bool := false

/-- `BaseMCPServer.tools`. -/
def BaseMCPServer.tools (s : BaseMCPServer) : List Tool :=
  s.toolsDict.map (fun p => p.2.tool)

/-- `BaseMCPServer.tool_names`. -/
def BaseMCPServer.tool_names (s : BaseMCPServer) : List String :=
  s.toolsDict.map (fun p => p.1)

/-- `BaseMCPServer.call_tool(name, arguments)`: look up, validate, run the
handler, catching handler exceptions. -/
def BaseMCPServer.call_tool (server : BaseMCPServer) (name : String) (args : Args) :
    ExecOutcome × List Event :=
  match lookupStr server.toolsDict name with
  | Option.none =>
    (.ok (ToolResult.error_result ("Unknown tool: " ++ name)), [])
  | some registered =>
    let va := registered.tool.validate_arguments args
    if !va.1 then
      (.ok (ToolResult.error_result ("Invalid arguments: " ++ va.2)), [])
    else
      match registered.handler args with
      | .ok r => (.ok r, [Event.handlerRan name args])
      | .raises e =>
        let m := e.toStr
        (.ok (ToolResult.error_result ("Tool execution failed: " ++ m)),
          [Event.handlerRan name args])
      | .hangs => (.hangs, [Event.handlerRan name args])

/-- The executor the router hands to the security gate is the bound method
`server.call_tool`, and the gate invokes it as `executor(**arguments)`.
Python binds the call's keyword arguments to `call_tool`'s parameters
`name` and `arguments`: binding raises `TypeError` unless the keyword set
is exactly \x7b"name", "arguments"\x7d.  A bound non-string `name` misses
the string-keyed tools dict (an unhashable one raises); a bound
`arguments` that is not a dict is modelled as the `TypeError` Python
raises when the non-mapping reaches validation or unpacking — no claim
exercises that corner. -/
def callToolBound (server : BaseMCPServer) (args : Args) : ExecOutcome × List Event :=
  match args.find? (fun p => p.1 ≠ "name" && p.1 ≠ "arguments") with
  | some p =>
    (.raises (.typeError
      ("call_tool() got an unexpected keyword argument '" ++ p.1 ++ "'")), [])
  | Option.none =>
    match lookupArg args "name", lookupArg args "arguments" with
    | some nv, some av =>
      (match nv with
       | .str n =>
         (match av with
          | .dict d => server.call_tool n d
          | _ => (.raises (.typeError "argument unpacking on a non-mapping"), []))
       | _ =>
         if !nv.hashable then
           let tn := nv.typeName
           (.raises (.typeError ("unhashable type: '" ++ tn ++ "'")), [])
         else
           let s := nv.pyStr
           (.ok (ToolResult.error_result ("Unknown tool: " ++ s)), []))
    | some _, Option.none =>
      (.raises (.typeError
        "call_tool() missing 1 required positional argument: 'arguments'"), [])
    | Option.none, some _ =>
      (.raises (.typeError
        "call_tool() missing 1 required positional argument: 'name'"), [])
    | Option.none, Option.none =>
      (.raises (.typeError
        "call_tool() missing 2 required positional arguments: 'name' and 'arguments'"), [])

/-! ### Server manager (`server_manager.py`) -/

/-- `types/server.py` `ServerState`. -/
inductive ServerState : Type where
  | stopped
  | starting
  | running
  | stopping
  | error
deriving DecidableEq, BEq, Repr

/-- `types/server.py` `ServerStatus` (timestamps are model-time naturals). -/
structure ServerStatus where
  server_id : String
  state : ServerState
  started_at : Option Nat := Option.none
  last_heartbeat : Option Nat := Option.none
  tool_count : Nat := 0
  error_count : Nat := 0
  last_error : Option String := Option.none
  pid : Option Nat := Option.none

/-- `server_manager.py` `ManagedServer` (config, capabilities and the
per-server health task are not consulted by any modelled path). -/
structure ManagedServer where
  server : BaseMCPServer
  status : ServerStatus

/-- `server_manager.py` `ServerManager` state.  `restart_counts` is the
`_restart_counts` dict. -/
structure ServerManager where
  health_check_interval : Nat := 30
  auto_restart : Bool := true
  max_restart_attempts : Nat := 3
  servers : List (String × ManagedServer)
  restart_counts : List (String × Nat)

/-- Point update of one managed server. -/
def updateManaged (servers : List (String × ManagedServer)) (sid : String)
    (f : ManagedServer → ManagedServer) : List (String × ManagedServer) :=
  servers.map (fun p => if p.1 = sid then (p.1, f p.2) else p)

/-- `ServerManager.running_servers`. -/
def ServerManager.running_servers (m : ServerManager) : List String :=
  (m.servers.filter (fun p => p.2.status.state == ServerState.running)).map (fun p => p.1)

/-- `ServerManager.get_server`. -/
def ServerManager.get_server (m : ServerManager) (sid : String) : Option BaseMCPServer :=
  (lookupStr m.servers sid).map (fun ms => ms.server)

/-- `ServerManager.get_all_tools`: tools of all running servers. -/
def ServerManager.get_all_tools (m : ServerManager) : List Tool :=
  m.running_servers.foldl
    (fun acc sid =>
      match lookupStr m.servers sid with
      | some ms => acc ++ ms.server.tools
      | Option.none => acc)
    []

/-- `ServerManager.initialize_server`.  `initErr` is the outcome of
`await managed.server.initialize()` (`Option.none` = success, `some e` =
it raised with message `e`); the transient `STARTING` state is interior to
the step.  Returns the raised `ServerNotFoundError` or
`ServerInitializationError` message, if any. -/
def ServerManager.initialize_server (m : ServerManager) (sid : String)
    (initErr : Option String) (now : Nat) : ServerManager × Option String :=
  match lookupStr m.servers sid with
  | Option.none => (m, some ("Server '" ++ sid ++ "' not found"))
  | some ms =>
    if ms.status.state = .running then (m, Option.none)
    else
      match initErr with
      | Option.none =>
        let m := { m with
          servers := updateManaged m.servers sid (fun ms1 =>
            { ms1 with status := { ms1.status with
                state := .running, started_at := some now,
                last_heartbeat := some now,
                tool_count := ms1.server.tools.length } })
          restart_counts := setStr m.restart_counts sid 0 }
        (m, Option.none)
      | some e =>
        let m := { m with servers := updateManaged m.servers sid (fun ms1 =>
          { ms1 with status := { ms1.status with
              state := .error, last_error := some e,
              error_count := ms1.status.error_count + 1 } }) }
        (m, some ("Failed to initialize '" ++ sid ++ "': " ++ e))

/-- `ServerManager.shutdown_server`.  `shutErr` is the outcome of
`await managed.server.shutdown()`; its exception is caught in place, so
only the not-found error is ever raised. -/
def ServerManager.shutdown_server (m : ServerManager) (sid : String)
    (shutErr : Option String) : ServerManager × Option String :=
  match lookupStr m.servers sid with
  | Option.none => (m, some ("Server '" ++ sid ++ "' not found"))
  | some ms =>
    if ms.status.state ≠ .running then (m, Option.none)
    else
      match shutErr with
      | Option.none =>
        ({ m with servers := updateManaged m.servers sid (fun ms1 =>
          { ms1 with status := { ms1.status with
              state := .stopped, pid := Option.none } }) }, Option.none)
      | some e =>
        ({ m with servers := updateManaged m.servers sid (fun ms1 =>
          { ms1 with status := { ms1.status with
              state := .error, last_error := some e } }) }, Option.none)

/-- `ServerManager.restart_server`: shutdown, quiet period, initialize. -/
def ServerManager.restart_server (m : ServerManager) (sid : String)
    (shutErr initErr : Option String) (now : Nat) : ServerManager × Option String :=
  let step1 := m.shutdown_server sid shutErr
  match step1.2 with
  | some e => (step1.1, some e)
  | Option.none => step1.1.initialize_server sid initErr now

/-- `ServerManager.check_server_health`: a bare is-running check that also
refreshes the heartbeat. -/
def ServerManager.check_server_health (m : ServerManager) (sid : String) (now : Nat) :
    ServerManager × Bool :=
  match lookupStr m.servers sid with
  | Option.none => (m, false)
  | some ms =>
    if ms.status.state ≠ .running then (m, false)
    else
      ({ m with servers := updateManaged m.servers sid (fun ms1 =>
        { ms1 with status := { ms1.status with last_heartbeat := some now } }) }, true)

/-- One server's step of the `_health_monitor_loop` body: check health; if
unhealthy and auto-restart is on, either restart while
`restart_count < max_restart_attempts` (incrementing the counter and
swallowing restart failures) or pin the server to `ERROR` once the budget
is exhausted. -/
def ServerManager.health_monitor_step (m : ServerManager) (sid : String)
    (shutErr initErr : Option String) (now : Nat) : ServerManager :=
  let checked := m.check_server_health sid now
  let m := checked.1
  let healthy := checked.2
  if !healthy && m.auto_restart then
    let restart_count := (lookupStr m.restart_counts sid).getD 0
    if restart_count < m.max_restart_attempts then
      let m := { m with restart_counts := setStr m.restart_counts sid (restart_count + 1) }
      (m.restart_server sid shutErr initErr now).1
    else
      { m with servers := updateManaged m.servers sid (fun ms1 =>
        { ms1 with status := { ms1.status with state := .error } }) }
  else m

/-! ### Tool router (`tool_router.py`) -/

/-- `tool_router.py` `RouterConfig` with source defaults (timeouts in whole
seconds; the source uses floats but every modelled value is integral). -/
structure RouterConfig where
  max_concurrent_tools : Nat := 5
  default_timeout : Nat := 60
  retry_on_failure : Bool := true
  max_retries : Nat := 2
  enable_caching : Bool := false
  cache_ttl_seconds : Nat := 300

/-- `tool_router.py` `ToolExecutionRecord` (timestamps in model time). -/
structure ToolExecutionRecord where
  tool_call_id : String
  tool_name : String
  server_id : String
  arguments : Args
  result : ToolResult
  started_at : Nat
  completed_at : Nat
  duration_ms : Nat

/-- `tool_router.py` `ToolRouter` state.  The counting semaphore only
sequences concurrent calls; a single modelled call always acquires it at
once, so it is not represented. -/
structure ToolRouter where
  server_manager : ServerManager
  security_manager : SecurityManager
  config : RouterConfig
  tool_cache : List (String × (String × Tool))
  result_cache : List (String × (ToolResult × Nat))
  execution_history : List ToolExecutionRecord

/-- `ToolRouter.refresh_tool_cache`: rebuild `name → (server_id, tool)`
from running servers; later servers overwrite earlier ones. -/
def ToolRouter.refresh_tool_cache (r : ToolRouter) : ToolRouter :=
  let cache := r.server_manager.running_servers.foldl
    (fun acc sid =>
      match r.server_manager.get_server sid with
      | some server => server.tools.foldl (fun acc2 t => setStr acc2 t.name (sid, t)) acc
      | Option.none => acc)
    []
  { r with tool_cache := cache }

/-- `ToolRouter.get_all_tools`. -/
def ToolRouter.get_all_tools (r : ToolRouter) : List Tool :=
  (r.refresh_tool_cache).tool_cache.map (fun p => p.2.2)

/-- `ToolRouter.find_tool`: consult the possibly stale cache, then refresh
and retry. -/
def ToolRouter.find_tool (r : ToolRouter) (name : String) :
    ToolRouter × Option (String × Tool) :=
  match lookupStr r.tool_cache name with
  | some info => (r, some info)
  | Option.none =>
    let r1 := r.refresh_tool_cache
    (r1, lookupStr r1.tool_cache name)

/-- `ToolRouter._make_cache_key`: the source hashes the key-sorted JSON of
the arguments with sha256; modelled by the injective canonical rendering
itself. -/
def make_cache_key (name : String) (args : Args) : String :=
  name ++ ":" ++ frozensetKey args

/-- `ToolRouter._get_cached_result`: TTL purge on read. -/
def ToolRouter.get_cached_result (r : ToolRouter) (key : String) (now : Nat) :
    ToolRouter × Option ToolResult :=
  match lookupStr r.result_cache key with
  | Option.none => (r, Option.none)
  | some rc =>
    if now - rc.2 > r.config.cache_ttl_seconds then
      ({ r with result_cache := r.result_cache.filter (fun p => p.1 ≠ key) }, Option.none)
    else (r, some rc.1)

/-- Stable insertion by cache timestamp, replicating Python `sorted`. -/
def insertByTime (x : String × (ToolResult × Nat)) :
    List (String × (ToolResult × Nat)) → List (String × (ToolResult × Nat))
  | [] => [x]
  | y :: ys => if x.2.2 < y.2.2 then x :: y :: ys else y :: insertByTime x ys

/-- `ToolRouter._cache_result`: insert, then evict the 20 oldest entries
when the cache exceeds 100. -/
def ToolRouter.cache_result (r : ToolRouter) (key : String) (result : ToolResult)
    (now : Nat) : ToolRouter :=
  let rc := setStr r.result_cache key (result, now)
  if rc.length > 100 then
    let sorted := rc.foldl (fun acc x => insertByTime x acc) []
    let old := (sorted.take 20).map (fun p => p.1)
    { r with result_cache := rc.filter (fun p => !(old.contains p.1)) }
  else { r with result_cache := rc }

/-- `ToolRouter._record_execution` (history truncation at 1000 to the most
recent 500). -/
def ToolRouter.record_execution (r : ToolRouter) (tc : ToolCall) (server_id : String)
    (result : ToolResult) (started_at completed_at : Nat) : ToolRouter :=
  let record : ToolExecutionRecord :=
    { tool_call_id := tc.id, tool_name := tc.name, server_id := server_id,
      arguments := tc.arguments, result := result,
      started_at := started_at, completed_at := completed_at,
      duration_ms := (completed_at - started_at) * 1000 }
  let h := r.execution_history ++ [record]
  let h := if h.length > 1000 then h.drop (h.length - 500) else h
  { r with execution_history := h }

/-- `ToolRouter.execute_tool`.  Faithful to the source: the computed
`timeout` is only ever used in the text of the `asyncio.TimeoutError`
handler — no `asyncio.wait_for` wraps the provider call, so a hanging
provider call makes the whole dispatch hang. -/
def ToolRouter.execute_tool (r : ToolRouter) (tc : ToolCall) (timeout? : Option Nat)
    (now : Nat) : Outcome ToolRouter ToolResult :=
  let timeout := timeout?.getD r.config.default_timeout
  let started_at := now
  let found := r.find_tool tc.name
  let r := found.1
  match found.2 with
  | Option.none =>
    .ret r [] (ToolResult.error_result
      ("Tool '" ++ tc.name ++ "' not found in any running server"))
  | some info =>
    let server_id := info.1
    let tool := info.2
    match r.server_manager.get_server server_id with
    | Option.none =>
      .ret r [] (ToolResult.error_result ("Server '" ++ server_id ++ "' not available"))
    | some server =>
      let cacheStep : ToolRouter × Option ToolResult :=
        if r.config.enable_caching then
          r.get_cached_result (make_cache_key tc.name tc.arguments) now
        else (r, Option.none)
      let r := cacheStep.1
      match cacheStep.2 with
      | some cached => .ret r [] cached
      | Option.none =>
        match r.security_manager.execute_with_security tool tc.arguments
            (fun a => callToolBound server a) with
        | .hangs evs => .hangs evs
        | .raises sm1 evs e =>
          let r := { r with security_manager := sm1 }
          (match e with
           | .timeoutError _ =>
             .ret r evs (ToolResult.error_result
               ("Tool '" ++ tc.name ++ "' timed out after " ++ toString timeout ++ ".0s"))
           | _ =>
             let m := e.toStr
             .ret r evs (ToolResult.error_result ("Execution error: " ++ m)))
        | .ret sm1 evs result =>
          let r := { r with security_manager := sm1 }
          let r := r.record_execution tc server_id result started_at now
          let r :=
            if r.config.enable_caching && result.success then
              r.cache_result (make_cache_key tc.name tc.arguments) result now
            else r
          .ret r evs result

/-! ### External servers (`client/external_server.py`) -/

/-- One content item of an MCP `tools/call` response. -/
inductive MCPItem : Type where
  | textItem (text : String)
  | imageItem (data : String) (mime : String)
  | resourceItem
  | otherType

/-- An MCP `tools/call` response payload. -/
structure MCPCallResult where
  isError : Bool := false
  content : List MCPItem

/-- Outcome of `StdioMCPClient.call_tool` (the child process's behaviour). -/
inductive ClientOutcome : Type where
  | ok (r : MCPCallResult)
  | raises (e : PyExn)
  | hangs

/-- Concatenated text of the text items, for the `isError` branch. -/
def errorTextOf : List MCPItem → String
  | [] => ""
  | .textItem t :: rest => t ++ errorTextOf rest
  | _ :: rest => errorTextOf rest

/-- Item translation of `ExternalMCPServer.call_tool`: text and image items
are converted, unknown types are skipped, and a resource item crashes
because the live `ToolContent` dataclass has no `resource` field — the
surrounding `except` turns that into an error result. -/
def translateItems : List MCPItem → Except String (List ToolContent)
  | [] => .ok []
  | .textItem t :: rest =>
    (translateItems rest).map
      (fun cs => ({ type := .text, text := some t } : ToolContent) :: cs)
  | .imageItem d m :: rest =>
    (translateItems rest).map
      (fun cs => ({ type := .image, data := some d, mime_type := some m } : ToolContent) :: cs)
  | .resourceItem :: _ =>
    .error "ToolContent.__init__() got an unexpected keyword argument 'resource'"
  | .otherType :: rest => translateItems rest

/-- `client/external_server.py` `ExternalMCPServer`: `running` is
`is_running` (client present and initialized); `client_call` is the
wrapped `StdioMCPClient.call_tool`. -/
structure ExternalMCPServer where
  server_id : String
  server_name : String
  running : Bool
  toolsDict : List (String × Tool)
  client_call : String → Args → ClientOutcome

/-- `ExternalMCPServer.get_tools`. -/
def ExternalMCPServer.get_tools (s : ExternalMCPServer) : List Tool :=
  s.toolsDict.map (fun p => p.2)

/-- `ExternalMCPServer.has_tool`. -/
def ExternalMCPServer.has_tool (s : ExternalMCPServer) (name : String) : Bool :=
  (lookupStr s.toolsDict name).isSome

/-- `ExternalMCPServer.call_tool`: no security checks of any kind — the
wrapper's own comment reads "External servers handle their own security". -/
def ExternalMCPServer.call_tool (s : ExternalMCPServer) (name : String) (args : Args) :
    ExecOutcome × List Event :=
  if !s.running then
    (.ok (ToolResult.error_result ("Server '" ++ s.server_name ++ "' is not running")), [])
  else if !(s.has_tool name) then
    (.ok (ToolResult.error_result
      ("Tool '" ++ name ++ "' not found on server '" ++ s.server_name ++ "'")), [])
  else
    let evs := [Event.externalCalled s.server_id name]
    match s.client_call name args with
    | .hangs => (.hangs, evs)
    | .raises e =>
      let m := e.toStr
      (.ok (ToolResult.error_result m), evs)
    | .ok res =>
      if res.isError then
        let errText := errorTextOf res.content
        (.ok (ToolResult.error_result (if errText = "" then "Unknown error" else errText)), evs)
      else
        match translateItems res.content with
        | .error m => (.ok (ToolResult.error_result m), evs)
        | .ok contents =>
          let contents :=
            if contents.isEmpty then [ToolContent.text_content "Success"] else contents
          (.ok { success := true, content := contents,
                 metadata := [("server_id", PyValue.str s.server_id)] }, evs)

/-- `client/external_server.py` `ExternalServerManager`. -/
structure ExternalServerManager where
  servers : List (String × ExternalMCPServer)

/-- `ExternalServerManager.find_tool_server`: first running server that has
the tool, in registration order. -/
def ExternalServerManager.find_tool_server (m : ExternalServerManager) (name : String) :
    Option ExternalMCPServer :=
  (m.servers.find? (fun p => p.2.running && p.2.has_tool name)).map (fun p => p.2)

/-- `ExternalServerManager.get_all_tools`. -/
def ExternalServerManager.get_all_tools (m : ExternalServerManager) : List Tool :=
  m.servers.foldl
    (fun acc p => if p.2.running then acc ++ p.2.get_tools else acc)
    []

/-! ### Orchestrator facade (`orchestrator.py`) -/

/-- `orchestrator.py` `MCPOrchestrator` state: the router (holding the
server and security managers) plus the external-server manager. -/
structure MCPOrchestrator where
  router : ToolRouter
  external : ExternalServerManager
  initialized : Bool

/-- `MCPOrchestrator.get_tools`: merge internal and external catalogs into
a name-keyed dict, external servers overwriting internal ones. -/
def MCPOrchestrator.get_tools (o : MCPOrchestrator) : List Tool :=
  let internal_tools := o.router.get_all_tools
  let external_tools := o.external.get_all_tools
  let tool_map := internal_tools.foldl (fun acc t => setStr acc t.name t) []
  let tool_map := external_tools.foldl (fun acc t => setStr acc t.name t) tool_map
  tool_map.map (fun p => p.2)

/-- `MCPOrchestrator.execute_tool`: a tool found on a running external
server is called directly on that server; only otherwise does the call go
through the router (and hence the security gate).  The theorems all assume
an initialized orchestrator; the lazy `initialize()` path is outside this
model. -/
def MCPOrchestrator.execute_tool (o : MCPOrchestrator) (tc : ToolCall)
    (timeout? : Option Nat) (now : Nat) : Outcome MCPOrchestrator ToolResult :=
  if !o.initialized then
    .raises o [] (.exn "initialize() is outside this model")
  else
    match o.external.find_tool_server tc.name with
    | some ext =>
      (match ext.call_tool tc.name tc.arguments with
       | (.ok r, evs) => .ret o evs r
       | (.raises e, evs) => .raises o evs e
       | (.hangs, evs) => .hangs evs)
    | Option.none =>
      match o.router.execute_tool tc timeout? now with
      | .ret r evs res => .ret { o with router := r } evs res
      | .raises r evs e => .raises { o with router := r } evs e
      | .hangs evs => .hangs evs

/-! ### Shared lemmas -/

theorem lookupStr_setStr_ne {α : Type} (l : List (String × α)) (k key : String) (v : α)
    (h : k ≠ key) : lookupStr (setStr l k v) key = lookupStr l key := by
  induction l with
  | nil => simp [setStr, lookupStr, h]
  | cons p rest ih =>
    obtain ⟨k', w⟩ := p
    by_cases hk : k' = k
    · subst hk
      simp [setStr, lookupStr, h]
    · simp [setStr, lookupStr, hk]
      split <;> simp_all [lookupStr]

theorem audit_context (sm : SecurityManager) (tool : Tool) (args : Args)
    (status : String) (details : Option String) :
    (sm.audit_log_operation tool args status details).context = sm.context := rfl

theorem contains_addOpKey_of (s : List String) (k0 k : String) (h : s.contains k = true) :
    (addOpKey s k0).contains k = true := by
  unfold addOpKey
  split
  · exact h
  · have hm : k ∈ s := by simpa using h
    simp [List.mem_append, hm]

theorem contains_addOpKey_self (s : List String) (k : String) :
    (addOpKey s k).contains k = true := by
  unfold addOpKey
  split
  · assumption
  · simp

theorem operation_key_ok_eq (tool : Tool) (args : Args) (key : String)
    (h : operation_key tool args = .ok key) : key = operationKeyOf tool args := by
  unfold operation_key at h
  unfold operationKeyOf
  cases hf : args.find? (fun p => !p.2.hashable) <;> rw [hf] at h <;> simp_all

/-! ### Security-gate path lemmas -/

theorem ews_of_deny (sm : SecurityManager) (tool : Tool) (args : Args) (executor : Executor)
    (c : SecurityCheckResult) (hc : sm.check_tool_permission tool args = .ok c)
    (hd : c.action = .deny) :
    sm.execute_with_security tool args executor =
      .ret (sm.audit_log_operation tool args "denied" c.reason)
        [Event.securityChecked tool.name, Event.audited "denied"]
        (ToolResult.error_result ("Permission denied: " ++
          (match c.reason with | some r => r | Option.none => "None"))) := by
  unfold SecurityManager.execute_with_security
  rw [hc]
  simp [hd]

theorem check_of_denied_mem (sm : SecurityManager) (tool : Tool) (args : Args) (key : String)
    (hkey : operation_key tool args = .ok key)
    (hmem : sm.context.denied_operations.contains key = true) :
    sm.check_tool_permission tool args =
      .ok { action := .deny, reason := some "Operation previously denied in this session" } := by
  have hmem' : key ∈ sm.context.denied_operations := by simpa using hmem
  unfold SecurityManager.check_tool_permission
  rw [hkey]
  simp [hmem']

theorem runExecutor_context (sm : SecurityManager) (tool : Tool) (args : Args)
    (executor : Executor) (evs : List Event) (sm1 : SecurityManager)
    (h : (sm.runExecutor tool args executor evs).state? = some sm1) :
    sm1.context = sm.context := by
  unfold SecurityManager.runExecutor at h
  rcases he : executor args with ⟨o, hevs⟩
  rw [he] at h
  cases o <;> simp [Outcome.state?] at h <;> subst h <;> rfl

theorem ews_denied_mono (sm : SecurityManager) (tool : Tool) (args : Args)
    (executor : Executor) (sm1 : SecurityManager)
    (h : (sm.execute_with_security tool args executor).state? = some sm1)
    (k : String) (hk : sm.context.denied_operations.contains k = true) :
    sm1.context.denied_operations.contains k = true := by
  unfold SecurityManager.execute_with_security at h
  cases hc : sm.check_tool_permission tool args with
  | error e =>
    rw [hc] at h
    simp [Outcome.state?] at h
    subst h; exact hk
  | ok check =>
    rw [hc] at h
    simp only at h
    by_cases hd : check.action = SecurityAction.deny
    · simp [hd, Outcome.state?] at h
      subst h; exact hk
    · simp only [hd, if_false] at h
      by_cases hcf : check.action = SecurityAction.confirm
      · simp only [hcf, if_true] at h
        cases hh : sm.confirmation_handler with
        | none =>
          rw [hh] at h
          simp [Outcome.state?, hcf] at h
          subst h; exact hk
        | some handler =>
          rw [hh] at h
          simp only at h
          cases hho : handler tool.name (match check.confirmation_message with
              | some m => m
              | Option.none => "Confirm execution?") with
          | raises e =>
            rw [hho] at h
            simp [Outcome.state?] at h
            subst h; exact hk
          | hangs =>
            rw [hho] at h
            simp [Outcome.state?] at h
          | answer b =>
            rw [hho] at h
            cases b with
            | false =>
              simp [Outcome.state?] at h
              subst h
              exact contains_addOpKey_of _ _ _ hk
            | true =>
              simp only at h
              have hctx := runExecutor_context _ _ _ _ _ _ (by simpa [Outcome.state?] using h)
              rw [hctx]
              exact hk
      · simp only [hcf, if_false] at h
        have hctx := runExecutor_context _ _ _ _ _ _ (by simpa [Outcome.state?] using h)
        rw [hctx]
        exact hk

theorem check_confirm_memoized (sm : SecurityManager) (tool : Tool) (args : Args)
    (key : String) (hkey : operation_key tool args = .ok key)
    (hden : sm.context.denied_operations.contains key = false)
    (hperm : (sm.check_permission_level tool).action ≠ .deny)
    (harg : (sm.check_arguments args).action ≠ .deny)
    (hcf : (tool.requires_confirmation || (sm.check_permission_level tool).requires_confirmation) = true)
    (hmem : sm.context.confirmed_operations.contains key = true) :
    sm.check_tool_permission tool args = .ok { action := .allow } := by
  have hden' : key ∉ sm.context.denied_operations := by simpa using hden
  have hmem' : key ∈ sm.context.confirmed_operations := by simpa using hmem
  unfold SecurityManager.check_tool_permission
  rw [hkey]
  simp only [Bool.or_eq_true] at hcf
  simp [hden', hperm, harg, hcf, hmem']

theorem check_confirm_fresh (sm : SecurityManager) (tool : Tool) (args : Args)
    (key : String) (hkey : operation_key tool args = .ok key)
    (hden : sm.context.denied_operations.contains key = false)
    (hperm : (sm.check_permission_level tool).action ≠ .deny)
    (harg : (sm.check_arguments args).action ≠ .deny)
    (hcf : (tool.requires_confirmation || (sm.check_permission_level tool).requires_confirmation) = true)
    (hmem : sm.context.confirmed_operations.contains key = false) :
    sm.check_tool_permission tool args =
      .ok { action := .confirm, requires_confirmation := true,
            confirmation_message := some (build_confirmation_message tool args) } := by
  have hden' : key ∉ sm.context.denied_operations := by simpa using hden
  have hmem' : key ∉ sm.context.confirmed_operations := by simpa using hmem
  unfold SecurityManager.check_tool_permission
  rw [hkey]
  simp only [Bool.or_eq_true] at hcf
  simp [hden', hperm, harg, hcf, hmem']

theorem runExecutor_events_execinv (sm : SecurityManager) (tool : Tool) (args : Args)
    (executor : Executor) (evs : List Event) :
    ((sm.runExecutor tool args executor evs).events.any Event.isExecutorInvoked) = true := by
  unfold SecurityManager.runExecutor
  rcases he : executor args with ⟨o, hevs⟩
  cases o <;> simp [Outcome.events, Event.isExecutorInvoked]

theorem runExecutor_events_noconfirm (sm : SecurityManager) (tool : Tool) (args : Args)
    (executor : Executor) (evs : List Event)
    (h1 : evs.any Event.isConfirmRequested = false)
    (h2 : ((executor args).2.any Event.isConfirmRequested) = false) :
    ((sm.runExecutor tool args executor evs).events.any Event.isConfirmRequested) = false := by
  unfold SecurityManager.runExecutor
  rcases he : executor args with ⟨o, hevs⟩
  rw [he] at h2
  cases o <;> simp_all [Outcome.events, Event.isConfirmRequested]

theorem runExecutor_fields (sm : SecurityManager) (tool : Tool) (args : Args)
    (executor : Executor) (evs : List Event) (sm1 : SecurityManager)
    (h : (sm.runExecutor tool args executor evs).state? = some sm1) :
    sm1.policy = sm.policy ∧ sm1.confirmation_handler = sm.confirmation_handler ∧
    sm1.resolve = sm.resolve ∧ sm1.context = sm.context := by
  unfold SecurityManager.runExecutor at h
  rcases he : executor args with ⟨o, hevs⟩
  rw [he] at h
  cases o <;> simp [Outcome.state?] at h <;> subst h <;> exact ⟨rfl, rfl, rfl, rfl⟩

theorem ews_of_allow (sm : SecurityManager) (tool : Tool) (args : Args)
    (executor : Executor) (c : SecurityCheckResult)
    (hc : sm.check_tool_permission tool args = .ok c)
    (ha : c.action = .allow) (hm : c.modified_arguments = Option.none) :
    sm.execute_with_security tool args executor =
      sm.runExecutor tool args executor [Event.securityChecked tool.name] := by
  unfold SecurityManager.execute_with_security
  rw [hc]
  simp [ha, hm]

theorem ews_of_confirm_true (sm : SecurityManager) (tool : Tool) (args : Args)
    (executor : Executor) (c : SecurityCheckResult) (handler : ConfirmHandler)
    (hc : sm.check_tool_permission tool args = .ok c)
    (ha : c.action = .confirm) (hm : c.modified_arguments = Option.none)
    (hh : sm.confirmation_handler = some handler)
    (hans : ∀ m, handler tool.name m = ConfirmOutcome.answer true) :
    ∃ msg, sm.execute_with_security tool args executor =
      ({ sm with context := { sm.context with
          confirmed_operations := addOpKey sm.context.confirmed_operations
            (operationKeyOf tool args) } }).runExecutor tool args executor
        [Event.securityChecked tool.name, Event.confirmRequested tool.name msg] := by
  refine ⟨match c.confirmation_message with | some m => m | Option.none => "Confirm execution?", ?_⟩
  unfold SecurityManager.execute_with_security
  rw [hc]
  simp only [ha, hh]
  rw [hans]
  simp [hm]

theorem ews_of_confirm_false (sm : SecurityManager) (tool : Tool) (args : Args)
    (executor : Executor) (c : SecurityCheckResult) (handler : ConfirmHandler)
    (hc : sm.check_tool_permission tool args = .ok c)
    (ha : c.action = .confirm)
    (hh : sm.confirmation_handler = some handler)
    (hans : ∀ m, handler tool.name m = ConfirmOutcome.answer false) :
    ∃ msg, sm.execute_with_security tool args executor =
      .ret (({ sm with context := { sm.context with
            denied_operations := addOpKey sm.context.denied_operations
              (operationKeyOf tool args) } }).audit_log_operation tool args
          "user_denied" Option.none)
        [Event.securityChecked tool.name, Event.confirmRequested tool.name msg,
         Event.audited "user_denied"]
        (ToolResult.error_result "Operation cancelled by user") := by
  refine ⟨match c.confirmation_message with | some m => m | Option.none => "Confirm execution?", ?_⟩
  unfold SecurityManager.execute_with_security
  rw [hc]
  simp only [ha, hh]
  rw [hans]
  simp

theorem is_blocked_path_congr (sm sm' : SecurityManager) (v : String)
    (hp : sm'.policy = sm.policy) (hr : sm'.resolve = sm.resolve) :
    sm'.is_blocked_path v = sm.is_blocked_path v := by
  unfold SecurityManager.is_blocked_path
  rw [hp, hr]

theorem is_blocked_command_congr (sm sm' : SecurityManager) (v : String)
    (hp : sm'.policy = sm.policy) :
    sm'.is_blocked_command v = sm.is_blocked_command v := by
  unfold SecurityManager.is_blocked_command
  rw [hp]

theorem has_blocked_extension_congr (sm sm' : SecurityManager) (v : String)
    (hp : sm'.policy = sm.policy) :
    sm'.has_blocked_extension v = sm.has_blocked_extension v := by
  unfold SecurityManager.has_blocked_extension
  rw [hp]

theorem check_arguments_congr (sm sm' : SecurityManager) (args : Args)
    (hp : sm'.policy = sm.policy) (hr : sm'.resolve = sm.resolve) :
    sm'.check_arguments args = sm.check_arguments args := by
  induction args with
  | nil => rfl
  | cons p rest ih =>
    obtain ⟨key, value⟩ := p
    unfold SecurityManager.check_arguments
    cases value <;>
      simp only [is_blocked_path_congr sm sm' _ hp hr,
        is_blocked_command_congr sm sm' _ hp,
        has_blocked_extension_congr sm sm' _ hp, ih]

theorem check_permission_level_congr (sm sm' : SecurityManager) (tool : Tool)
    (hp : sm'.policy = sm.policy) (ht : sm'.context.trust_level = sm.context.trust_level) :
    sm'.check_permission_level tool = sm.check_permission_level tool := by
  unfold SecurityManager.check_permission_level
  rw [hp, ht]

theorem runExecutor_events_mono (sm : SecurityManager) (tool : Tool) (args : Args)
    (executor : Executor) (evs : List Event) (p : Event → Bool)
    (h : evs.any p = true) :
    ((sm.runExecutor tool args executor evs).events.any p) = true := by
  unfold SecurityManager.runExecutor
  rcases he : executor args with ⟨o, hevs⟩
  cases o <;> simp [Outcome.events, h]

theorem ews_memoized_events (sm : SecurityManager) (tool : Tool) (args : Args)
    (key : String) (executor : Executor)
    (hkey : operation_key tool args = .ok key)
    (hden : sm.context.denied_operations.contains key = false)
    (hperm : (sm.check_permission_level tool).action ≠ .deny)
    (harg : (sm.check_arguments args).action ≠ .deny)
    (hcf : (tool.requires_confirmation || (sm.check_permission_level tool).requires_confirmation) = true)
    (hmem : sm.context.confirmed_operations.contains key = true)
    (hee : ((executor args).2.any Event.isConfirmRequested) = false) :
    ((sm.execute_with_security tool args executor).events.any Event.isConfirmRequested) = false ∧
    ((sm.execute_with_security tool args executor).events.any Event.isExecutorInvoked) = true := by
  have hc := check_confirm_memoized sm tool args key hkey hden hperm harg hcf hmem
  rw [ews_of_allow sm tool args executor _ hc rfl rfl]
  refine ⟨runExecutor_events_noconfirm sm tool args executor _ ?_ hee, runExecutor_events_execinv ..⟩
  simp [Event.isConfirmRequested]

/-- Claim C5: for a call whose security check yields CONFIRM, a fingerprint
already in `confirmed_operations` executes without a handler round-trip; a
fresh fingerprint goes to the handler, and a true answer memoizes the
fingerprint and executes (a second identical call then skips the handler),
while a false answer memoizes the denial and returns the
user-cancelled error without invoking the executor. -/
theorem C5_confirm_semantics :
    ∀ (sm : SecurityManager) (tool : Tool) (args : Args) (key : String),
      operation_key tool args = .ok key →
      sm.context.denied_operations.contains key = false →
      (sm.check_permission_level tool).action ≠ .deny →
      (sm.check_arguments args).action ≠ .deny →
      (tool.requires_confirmation || (sm.check_permission_level tool).requires_confirmation) = true →
      ∀ executor : Executor,
        ((executor args).2.any Event.isConfirmRequested) = false →
      ( -- (a) fingerprint already confirmed: no handler round-trip, executor invoked
       (sm.context.confirmed_operations.contains key = true →
        ((sm.execute_with_security tool args executor).events.any Event.isConfirmRequested) = false ∧
        ((sm.execute_with_security tool args executor).events.any Event.isExecutorInvoked) = true) ∧
       -- (b) fresh fingerprint, handler answers true: confirm requested, memoized, executed;
       --     and a second identical call skips the handler
       (sm.context.confirmed_operations.contains key = false →
        ∀ handler : ConfirmHandler, sm.confirmation_handler = some handler →
        (∀ m, handler tool.name m = ConfirmOutcome.answer true) →
          ((sm.execute_with_security tool args executor).events.any Event.isConfirmRequested) = true ∧
          ((sm.execute_with_security tool args executor).events.any Event.isExecutorInvoked) = true ∧
          (∀ sm1, (sm.execute_with_security tool args executor).state? = some sm1 →
            sm1.context.confirmed_operations.contains key = true ∧
            ((sm1.execute_with_security tool args executor).events.any Event.isConfirmRequested) = false ∧
            ((sm1.execute_with_security tool args executor).events.any Event.isExecutorInvoked) = true)) ∧
       -- (c) fresh fingerprint, handler answers false: denial memoized, user-cancelled error,
       --     executor not invoked
       (sm.context.confirmed_operations.contains key = false →
        ∀ handler : ConfirmHandler, sm.confirmation_handler = some handler →
        (∀ m, handler tool.name m = ConfirmOutcome.answer false) →
          ∃ sm1 msg,
            sm.execute_with_security tool args executor =
              .ret sm1 [Event.securityChecked tool.name,
                Event.confirmRequested tool.name msg, Event.audited "user_denied"]
                (ToolResult.error_result "Operation cancelled by user") ∧
            sm1.context.denied_operations.contains key = true)) := by
  intro sm tool args key hkey hden hperm harg hcf executor hee
  have hkeyof := operation_key_ok_eq tool args key hkey
  refine ⟨?_, ?_, ?_⟩
  · intro hmem
    exact ews_memoized_events sm tool args key executor hkey hden hperm harg hcf hmem hee
  · intro hmem handler hh hans
    have hc := check_confirm_fresh sm tool args key hkey hden hperm harg hcf hmem
    obtain ⟨msg, heq⟩ := ews_of_confirm_true sm tool args executor _ handler hc rfl rfl hh hans
    rw [heq]
    refine ⟨?_, runExecutor_events_execinv .., ?_⟩
    · exact runExecutor_events_mono _ _ _ _ _ _ (by simp [Event.isConfirmRequested])
    · intro sm1 h1
      obtain ⟨hp1, hh1, hr1, hctx1⟩ := runExecutor_fields _ _ _ _ _ _ h1
      have hconf1 : sm1.context.confirmed_operations.contains key = true := by
        rw [hctx1]
        rw [hkeyof]
        exact contains_addOpKey_self ..
      refine ⟨hconf1, ?_⟩
      have hden1 : sm1.context.denied_operations.contains key = false := by
        rw [hctx1]; exact hden
      have hpol1 : sm1.policy = sm.policy := by rw [hp1]
      have htr1 : sm1.context.trust_level = sm.context.trust_level := by rw [hctx1]
      have hres1 : sm1.resolve = sm.resolve := by rw [hr1]
      have hpc1 := check_permission_level_congr sm sm1 tool hpol1 htr1
      have hac1 := check_arguments_congr sm sm1 args hpol1 hres1
      exact ews_memoized_events sm1 tool args key executor hkey hden1
        (by rw [hpc1]; exact hperm) (by rw [hac1]; exact harg)
        (by rw [hpc1]; exact hcf) hconf1 hee
  · intro hmem handler hh hans
    have hc := check_confirm_fresh sm tool args key hkey hden hperm harg hcf hmem
    obtain ⟨msg, heq⟩ := ews_of_confirm_false sm tool args executor _ handler hc rfl hh hans
    refine ⟨_, msg, heq, ?_⟩
    rw [hkeyof]
    exact contains_addOpKey_self ..


/-- Claim C4: a fingerprint present in `denied_operations` makes every later
dispatch of the same fingerprint return the previously-denied error without
consulting the confirmation handler or the executor, the denied set never
shrinks across dispatches, and the short-circuit leaves the context
unchanged. -/
theorem C4_denied_memoization :
    (∀ (sm : SecurityManager) (tool : Tool) (args : Args) (executor : Executor) (key : String),
      operation_key tool args = .ok key →
      sm.context.denied_operations.contains key = true →
      sm.execute_with_security tool args executor =
        .ret (sm.audit_log_operation tool args "denied"
            (some "Operation previously denied in this session"))
          [Event.securityChecked tool.name, Event.audited "denied"]
          (ToolResult.error_result
            "Permission denied: Operation previously denied in this session") ∧
      (sm.audit_log_operation tool args "denied"
          (some "Operation previously denied in this session")).context = sm.context) ∧
    (∀ (sm : SecurityManager) (tool : Tool) (args : Args) (executor : Executor)
        (sm1 : SecurityManager),
      (sm.execute_with_security tool args executor).state? = some sm1 →
      ∀ k, sm.context.denied_operations.contains k = true →
        sm1.context.denied_operations.contains k = true) := by
  constructor
  · intro sm tool args executor key hkey hmem
    have hc := check_of_denied_mem sm tool args key hkey hmem
    have hd := ews_of_deny sm tool args executor _ hc rfl
    exact ⟨by simpa using hd, audit_context ..⟩
  · intro sm tool args executor sm1 h k hk
    exact ews_denied_mono sm tool args executor sm1 h k hk

theorem router_execute_gate (r : ToolRouter) (tc : ToolCall) (timeout? : Option Nat)
    (now : Nat) (r1 : ToolRouter) (sid : String) (tool : Tool) (server : BaseMCPServer)
    (hf : r.find_tool tc.name = (r1, some (sid, tool)))
    (hs : r1.server_manager.get_server sid = some server)
    (hcache : r1.config.enable_caching = false) :
    r.execute_tool tc timeout? now =
      match r1.security_manager.execute_with_security tool tc.arguments
          (fun a => callToolBound server a) with
      | .hangs evs => .hangs evs
      | .raises sm1 evs e =>
        (match e with
         | .timeoutError _ =>
           Outcome.ret { r1 with security_manager := sm1 } evs
             (ToolResult.error_result ("Tool '" ++ tc.name ++ "' timed out after " ++
               toString (timeout?.getD r.config.default_timeout) ++ ".0s"))
         | _ =>
           Outcome.ret { r1 with security_manager := sm1 } evs
             (ToolResult.error_result ("Execution error: " ++ e.toStr)))
      | .ret sm1 evs result =>
        .ret (({ r1 with security_manager := sm1 }).record_execution tc sid result now now)
          evs result := by
  unfold ToolRouter.execute_tool
  rw [hf]
  simp only [hs, hcache, Bool.false_eq_true, if_false]
  cases hout : r1.security_manager.execute_with_security tool tc.arguments
      (fun a => callToolBound server a) with
  | hangs evs => simp
  | raises sm1 evs e => cases e <;> simp
  | ret sm1 evs result => simp [ToolRouter.record_execution, hcache]


theorem ews_of_check_error (sm : SecurityManager) (tool : Tool) (args : Args)
    (executor : Executor) (e : PyExn)
    (hc : sm.check_tool_permission tool args = .error e) :
    sm.execute_with_security tool args executor =
      .raises sm [Event.securityChecked tool.name] e := by
  unfold SecurityManager.execute_with_security
  rw [hc]

theorem check_unhashable (sm : SecurityManager) (tool : Tool) (args : Args)
    (p : String × PyValue)
    (hfind : args.find? (fun q => !q.2.hashable) = some p) :
    sm.check_tool_permission tool args =
      .error (.typeError ("unhashable type: '" ++ p.2.typeName ++ "'")) := by
  unfold SecurityManager.check_tool_permission operation_key
  rw [hfind]

/-- Claim C10: arguments holding an unhashable (list- or dict-valued) entry
make the security fingerprint `hash(frozenset(arguments.items()))` raise
`TypeError` before any policy rule is evaluated, and the router turns that
into an execution-error result; the provider is never invoked. -/
theorem C10_unhashable_arguments :
    ∀ (r : ToolRouter) (tc : ToolCall) (timeout? : Option Nat) (now : Nat)
      (r1 : ToolRouter) (sid : String) (tool : Tool) (server : BaseMCPServer)
      (p : String × PyValue),
      r.find_tool tc.name = (r1, some (sid, tool)) →
      r1.server_manager.get_server sid = some server →
      r1.config.enable_caching = false →
      tc.arguments.find? (fun q => !q.2.hashable) = some p →
      r1.security_manager.check_tool_permission tool tc.arguments =
        .error (.typeError ("unhashable type: '" ++ p.2.typeName ++ "'")) ∧
      r.execute_tool tc timeout? now =
        .ret r1 [Event.securityChecked tool.name]
          (ToolResult.error_result
            ("Execution error: " ++ ("unhashable type: '" ++ p.2.typeName ++ "'"))) := by
  intro r tc timeout? now r1 sid tool server p hf hs hcache hfind
  have hc := check_unhashable r1.security_manager tool tc.arguments p hfind
  refine ⟨hc, ?_⟩
  rw [router_execute_gate r tc timeout? now r1 sid tool server hf hs hcache]
  rw [ews_of_check_error _ _ _ _ _ hc]
  simp [PyExn.toStr]

theorem lookup_foldtools_none (tools : List Tool) (sid : String)
    (acc : List (String × (String × Tool))) (name : String)
    (hacc : lookupStr acc name = Option.none)
    (h : ∀ t ∈ tools, t.name ≠ name) :
    lookupStr (tools.foldl (fun acc2 t => setStr acc2 t.name (sid, t)) acc) name =
      Option.none := by
  induction tools generalizing acc with
  | nil => exact hacc
  | cons t rest ih =>
    simp only [List.foldl_cons]
    refine ih _ ?_ (fun t' ht' => h t' (by simp [ht']))
    rw [lookupStr_setStr_ne _ _ _ _ (h t (by simp))]
    exact hacc

theorem lookup_foldservers_none (m : ServerManager) (sids : List String)
    (acc : List (String × (String × Tool))) (name : String)
    (hacc : lookupStr acc name = Option.none)
    (h : ∀ sid ∈ sids, ∀ server, m.get_server sid = some server →
      ∀ t ∈ server.tools, t.name ≠ name) :
    lookupStr
      (sids.foldl
        (fun acc2 sid =>
          match m.get_server sid with
          | some server => server.tools.foldl (fun acc3 t => setStr acc3 t.name (sid, t)) acc2
          | Option.none => acc2)
        acc) name = Option.none := by
  induction sids generalizing acc with
  | nil => exact hacc
  | cons sid rest ih =>
    simp only [List.foldl_cons]
    cases hg : m.get_server sid with
    | none =>
      exact ih _ hacc (fun s hs server hsv t ht => h s (by simp [hs]) server hsv t ht)
    | some server =>
      refine ih _ ?_ (fun s hs server' hsv t ht => h s (by simp [hs]) server' hsv t ht)
      exact lookup_foldtools_none _ _ _ _ hacc (h sid (by simp) server hg)

theorem refresh_lookup_none (r : ToolRouter) (name : String)
    (h : ∀ sid server, r.server_manager.get_server sid = some server →
      ∀ t ∈ server.tools, t.name ≠ name) :
    lookupStr (r.refresh_tool_cache).tool_cache name = Option.none := by
  unfold ToolRouter.refresh_tool_cache
  exact lookup_foldservers_none r.server_manager _ [] name rfl
    (fun sid _ server hsv t ht => h sid server hsv t ht)

/-- Claim C8: a call whose tool name no running server serves returns a
not-found error straight from the router, before the security gate: no
permission check, no confirmation request, no audit entry, and the security
manager and execution history are unchanged. -/
theorem C8_unknown_tool_skips_security :
    ∀ (r : ToolRouter) (tc : ToolCall) (timeout? : Option Nat) (now : Nat),
      lookupStr r.tool_cache tc.name = Option.none →
      (∀ sid server, r.server_manager.get_server sid = some server →
        ∀ t ∈ server.tools, t.name ≠ tc.name) →
      r.execute_tool tc timeout? now =
        .ret r.refresh_tool_cache []
          (ToolResult.error_result
            ("Tool '" ++ tc.name ++ "' not found in any running server")) ∧
      (r.refresh_tool_cache).security_manager = r.security_manager ∧
      (r.refresh_tool_cache).execution_history = r.execution_history := by
  intro r tc timeout? now hstale h
  have hfresh := refresh_lookup_none r tc.name h
  have hfind : r.find_tool tc.name = (r.refresh_tool_cache, Option.none) := by
    unfold ToolRouter.find_tool
    rw [hstale]
    simp [hfresh]
  refine ⟨?_, rfl, rfl⟩
  unfold ToolRouter.execute_tool
  rw [hfind]

/-- Claim C9 (amended): once a tool is found, the router converts every
raised exception into an error `ToolResult` rather than propagating it; an
`asyncio.TimeoutError` becomes the timed-out message naming the tool and the
limit, and every other exception becomes a message beginning with
the execution-error prefix. -/
theorem C9_amended_exception_totality :
    ∀ (r : ToolRouter) (tc : ToolCall) (timeout? : Option Nat) (now : Nat)
      (r1 : ToolRouter) (sid : String) (tool : Tool) (server : BaseMCPServer),
      r.find_tool tc.name = (r1, some (sid, tool)) →
      r1.server_manager.get_server sid = some server →
      r1.config.enable_caching = false →
      (∀ sm1 evs e,
        r1.security_manager.execute_with_security tool tc.arguments
            (fun a => callToolBound server a) = .raises sm1 evs e →
        r.execute_tool tc timeout? now =
          .ret { r1 with security_manager := sm1 } evs
            (ToolResult.error_result
              (match e with
               | .timeoutError _ =>
                 "Tool '" ++ tc.name ++ "' timed out after " ++
                   toString (timeout?.getD r.config.default_timeout) ++ ".0s"
               | .typeError m => "Execution error: " ++ m
               | .exn m => "Execution error: " ++ m))) ∧
      (∀ sm1 evs res,
        r1.security_manager.execute_with_security tool tc.arguments
            (fun a => callToolBound server a) = .ret sm1 evs res →
        r.execute_tool tc timeout? now =
          .ret (({ r1 with security_manager := sm1 }).record_execution tc sid res now now)
            evs res) := by
  intro r tc timeout? now r1 sid tool server hf hs hcache
  constructor
  · intro sm1 evs e hout
    rw [router_execute_gate r tc timeout? now r1 sid tool server hf hs hcache, hout]
    cases e <;> simp [PyExn.toStr]
  · intro sm1 evs res hout
    rw [router_execute_gate r tc timeout? now r1 sid tool server hf hs hcache, hout]

/-- Claim C3: the per-call timeout is never enforced: the security gate
passes a divergent executor's divergence through, and the router propagates
a divergent gate call unchanged, for every timeout argument — no
timed-out result is ever produced from a hanging call. -/
theorem C3_timeout_never_enforced :
    (∀ (sm : SecurityManager) (tool : Tool) (args : Args) (executor : Executor)
        (c : SecurityCheckResult),
      sm.check_tool_permission tool args = .ok c → c.action = .allow →
      c.modified_arguments = Option.none →
      (executor args).1 = ExecOutcome.hangs →
      ∃ evs, sm.execute_with_security tool args executor = .hangs evs) ∧
    (∀ (r : ToolRouter) (tc : ToolCall) (timeout? : Option Nat) (now : Nat)
        (r1 : ToolRouter) (sid : String) (tool : Tool) (server : BaseMCPServer)
        (evs0 : List Event),
      r.find_tool tc.name = (r1, some (sid, tool)) →
      r1.server_manager.get_server sid = some server →
      r1.config.enable_caching = false →
      r1.security_manager.execute_with_security tool tc.arguments
          (fun a => callToolBound server a) = .hangs evs0 →
      r.execute_tool tc timeout? now = .hangs evs0) := by
  constructor
  · intro sm tool args executor c hc ha hm hhang
    rw [ews_of_allow sm tool args executor c hc ha hm]
    unfold SecurityManager.runExecutor
    rcases he : executor args with ⟨o, hevs⟩
    rw [he] at hhang
    simp at hhang
    subst hhang
    exact ⟨_, rfl⟩
  · intro r tc timeout? now r1 sid tool server evs0 hf hs hcache hout
    rw [router_execute_gate r tc timeout? now r1 sid tool server hf hs hcache, hout]

theorem check_arguments_deny_of_blocked (sm : SecurityManager) (args : Args)
    (k v : String) (hmem : (k, PyValue.str v) ∈ args)
    (hb : sm.is_blocked_path v = true) :
    (sm.check_arguments args).action = .deny := by
  induction args with
  | nil => simp at hmem
  | cons p rest ih =>
    obtain ⟨k0, v0⟩ := p
    rcases List.mem_cons.mp hmem with heq | hmem'
    · cases heq
      unfold SecurityManager.check_arguments
      simp [hb]
    · unfold SecurityManager.check_arguments
      cases v0 with
      | str s =>
        dsimp only
        split_ifs <;> simp [ih hmem']
      | int n => exact ih hmem'
      | bool b => exact ih hmem'
      | list xs => exact ih hmem'
      | dict xs => exact ih hmem'
      | null => exact ih hmem'

theorem check_permission_level_cases (sm : SecurityManager) (tool : Tool) :
    sm.check_permission_level tool = { action := .allow } ∨
    sm.check_permission_level tool = { action := .confirm, requires_confirmation := true } ∨
    (∃ r, sm.check_permission_level tool =
      { action := .deny, reason := some r }) := by
  unfold SecurityManager.check_permission_level
  by_cases h1 : tool.permission_level = "dangerous"
  · simp only [if_pos h1]
    by_cases h2 : sm.context.trust_level < 3
    · simp [h2]
    · by_cases h3 : sm.policy.require_confirmation_for_dangerous <;> simp [h2, h3]
  · simp only [if_neg h1]
    by_cases h2 : tool.permission_level = "system"
    · simp only [if_pos h2]
      by_cases h3 : sm.context.trust_level < 2
      · simp [h3]
      · by_cases h4 : sm.policy.require_confirmation_for_system <;> simp [h3, h4]
    · simp only [if_neg h2]
      by_cases h3 : tool.permission_level = "execute"
      · simp only [if_pos h3]
        by_cases h4 : sm.policy.require_confirmation_for_execute <;> simp [h4]
      · simp only [if_neg h3]
        by_cases h4 : tool.permission_level = "write"
        · simp only [if_pos h4]
          by_cases h5 : sm.policy.require_confirmation_for_write <;> simp [h5]
        · simp [h4]

theorem check_permission_deny_reason (sm : SecurityManager) (tool : Tool)
    (h : (sm.check_permission_level tool).action = .deny) :
    ∃ r, (sm.check_permission_level tool).reason = some r := by
  rcases check_permission_level_cases sm tool with hc | hc | ⟨r, hc⟩ <;>
    rw [hc] at h ⊢ <;> simp_all

theorem check_arguments_deny_reason (sm : SecurityManager) (args : Args)
    (h : (sm.check_arguments args).action = .deny) :
    ∃ r, (sm.check_arguments args).reason = some r := by
  induction args with
  | nil => simp [SecurityManager.check_arguments] at h
  | cons p rest ih =>
    obtain ⟨k0, v0⟩ := p
    unfold SecurityManager.check_arguments at h ⊢
    cases v0 with
    | str s =>
      dsimp only at h ⊢
      split_ifs at h ⊢ <;> first | simp | exact ih h
    | int n => exact ih h
    | bool b => exact ih h
    | list xs => exact ih h
    | dict xs => exact ih h
    | null => exact ih h

theorem check_deny_of_blocked (sm : SecurityManager) (tool : Tool) (args : Args)
    (k v : String)
    (hhash : args.find? (fun q => !q.2.hashable) = Option.none)
    (hmem : (k, PyValue.str v) ∈ args)
    (hb : sm.is_blocked_path v = true) :
    ∃ c, sm.check_tool_permission tool args = .ok c ∧ c.action = .deny ∧
      ∃ reason, c.reason = some reason := by
  have hargdeny := check_arguments_deny_of_blocked sm args k v hmem hb
  unfold SecurityManager.check_tool_permission operation_key
  rw [hhash]
  simp only
  split_ifs with h1 h2
  · exact ⟨_, rfl, rfl, _, rfl⟩
  · exact ⟨_, rfl, h2, check_permission_deny_reason sm tool h2⟩
  · exact ⟨_, rfl, hargdeny, check_arguments_deny_reason sm args hargdeny⟩


theorem orch_execute_router (o : MCPOrchestrator) (tc : ToolCall) (timeout? : Option Nat)
    (now : Nat) (hinit : o.initialized = true)
    (hext : o.external.find_tool_server tc.name = Option.none) :
    o.execute_tool tc timeout? now =
      match o.router.execute_tool tc timeout? now with
      | .ret r evs res => .ret { o with router := r } evs res
      | .raises r evs e => .raises { o with router := r } evs e
      | .hangs evs => .hangs evs := by
  unfold MCPOrchestrator.execute_tool
  rw [hext]
  simp [hinit]

theorem external_call_events (s : ExternalMCPServer) (name : String) (args : Args) :
    ((s.call_tool name args).2.any Event.isSecurityChecked) = false ∧
    ((s.call_tool name args).2.any Event.isConfirmRequested) = false := by
  unfold ExternalMCPServer.call_tool
  split_ifs <;> try simp
  cases hcc : s.client_call name args with
  | hangs => simp [Event.isSecurityChecked, Event.isConfirmRequested]
  | raises e => simp [Event.isSecurityChecked, Event.isConfirmRequested]
  | ok res =>
    by_cases hie : res.isError
    · simp [hie, Event.isSecurityChecked, Event.isConfirmRequested]
    · cases ht : translateItems res.content <;>
        simp [hie, ht, Event.isSecurityChecked, Event.isConfirmRequested]

/-- Claim C1 (amended): only internally served calls flow through the
security gate — for those, a blocked-path argument yields a
permission-denied error with no confirmation and no provider invocation;
a call served by a running external server is dispatched with no security
check and no confirmation at all. -/
theorem C1_amended_gate_internal_only :
    (∀ (o : MCPOrchestrator) (tc : ToolCall) (timeout? : Option Nat) (now : Nat)
        (r1 : ToolRouter) (sid : String) (tool : Tool) (server : BaseMCPServer)
        (k v : String),
      o.initialized = true →
      o.external.find_tool_server tc.name = Option.none →
      o.router.find_tool tc.name = (r1, some (sid, tool)) →
      r1.server_manager.get_server sid = some server →
      r1.config.enable_caching = false →
      tc.arguments.find? (fun q => !q.2.hashable) = Option.none →
      (k, PyValue.str v) ∈ tc.arguments →
      r1.security_manager.is_blocked_path v = true →
      ∃ o2 evs res reason,
        o.execute_tool tc timeout? now = .ret o2 evs res ∧
        res.success = false ∧
        res.error_message = some ("Permission denied: " ++ reason) ∧
        (evs.any Event.isConfirmRequested) = false ∧
        (evs.any Event.isExecutorInvoked) = false ∧
        (evs.any Event.isHandlerRan) = false) ∧
    (∀ (o : MCPOrchestrator) (tc : ToolCall) (timeout? : Option Nat) (now : Nat)
        (ext : ExternalMCPServer),
      o.initialized = true →
      o.external.find_tool_server tc.name = some ext →
      ((o.execute_tool tc timeout? now).events.any Event.isSecurityChecked) = false ∧
      ((o.execute_tool tc timeout? now).events.any Event.isConfirmRequested) = false) := by
  constructor
  · intro o tc timeout? now r1 sid tool server k v hinit hext hf hs hcache hhash hmem hb
    obtain ⟨c, hc, hcd, reason, hreason⟩ :=
      check_deny_of_blocked r1.security_manager tool tc.arguments k v hhash hmem hb
    have hew := ews_of_deny r1.security_manager tool tc.arguments
      (fun a => callToolBound server a) c hc hcd
    rw [orch_execute_router o tc timeout? now hinit hext]
    rw [router_execute_gate o.router tc timeout? now r1 sid tool server hf hs hcache]
    rw [hew]
    refine ⟨_, _, _, reason, rfl, rfl, ?_, ?_, ?_, ?_⟩
    · simp [ToolResult.error_result, hreason]
    · simp [Event.isConfirmRequested]
    · simp [Event.isExecutorInvoked]
    · simp [Event.isHandlerRan]
  · intro o tc timeout? now ext hinit hext
    unfold MCPOrchestrator.execute_tool
    rw [hext]
    simp only [hinit]
    have he := external_call_events ext tc.name tc.arguments
    rcases hcc : ext.call_tool tc.name tc.arguments with ⟨o1, evs⟩
    rw [hcc] at he
    cases o1 <;> simpa [Outcome.events] using he



theorem lookupStr_setStr_self {α : Type} (l : List (String × α)) (k : String) (v : α) :
    lookupStr (setStr l k v) k = some v := by
  induction l with
  | nil => simp [setStr, lookupStr]
  | cons p rest ih =>
    obtain ⟨k0, w⟩ := p
    by_cases hk : k0 = k
    · subst hk
      simp [setStr, lookupStr]
    · simp [setStr, lookupStr, hk, ih]

theorem mem_setStr {α : Type} (l : List (String × α)) (k : String) (v : α)
    (p : String × α) (h : p ∈ setStr l k v) : p ∈ l ∨ p = (k, v) := by
  induction l with
  | nil => simpa [setStr] using h
  | cons q rest ih =>
    obtain ⟨k0, w⟩ := q
    by_cases hk : k0 = k
    · subst hk
      simp [setStr] at h
      rcases h with h | h
      · subst h; right; rfl
      · left; simp [h]
    · simp [setStr, hk] at h
      rcases h with h | h
      · left; simp [h]
      · rcases ih h with h' | h'
        · left; simp [h']
        · right; exact h'

theorem pairwise_setStr {α : Type} (l : List (String × α)) (k : String) (v : α)
    (h : l.Pairwise (fun a b => a.1 ≠ b.1)) :
    (setStr l k v).Pairwise (fun a b => a.1 ≠ b.1) := by
  induction l with
  | nil => simp [setStr]
  | cons q rest ih =>
    obtain ⟨k0, w⟩ := q
    rw [List.pairwise_cons] at h
    obtain ⟨hq, hrest⟩ := h
    by_cases hk : k0 = k
    · subst hk
      have hset : setStr ((k0, w) :: rest) k0 v = (k0, v) :: rest := by simp [setStr]
      rw [hset, List.pairwise_cons]
      exact ⟨hq, hrest⟩
    · simp only [setStr, if_neg hk]
      rw [List.pairwise_cons]
      refine ⟨?_, ih hrest⟩
      intro b hb
      rcases mem_setStr rest k v b hb with h' | h'
      · exact hq b h'
      · subst h'; exact hk

theorem keyed_setStr {α : Type} (key : α → String) (l : List (String × α)) (v : α)
    (h : ∀ p ∈ l, p.1 = key p.2) (p : String × α) (hp : p ∈ setStr l (key v) v) :
    p.1 = key p.2 := by
  rcases mem_setStr l (key v) v p hp with h' | h'
  · exact h p h'
  · subst h'; rfl

theorem fold_keyed (tools : List Tool) (acc : List (String × Tool))
    (hacc : ∀ p ∈ acc, p.1 = p.2.name) :
    ∀ p ∈ tools.foldl (fun acc2 t => setStr acc2 t.name t) acc, p.1 = p.2.name := by
  induction tools generalizing acc with
  | nil => exact hacc
  | cons t rest ih =>
    simp only [List.foldl_cons]
    exact ih _ (fun p hp => keyed_setStr (fun t => t.name) acc t hacc p hp)

theorem fold_uniq (tools : List Tool) (acc : List (String × Tool))
    (hacc : acc.Pairwise (fun a b => a.1 ≠ b.1)) :
    (tools.foldl (fun acc2 t => setStr acc2 t.name t) acc).Pairwise
      (fun a b => a.1 ≠ b.1) := by
  induction tools generalizing acc with
  | nil => exact hacc
  | cons t rest ih =>
    simp only [List.foldl_cons]
    exact ih _ (pairwise_setStr acc t.name t hacc)

theorem lookup_foldupsert_ne (tools : List Tool) (acc : List (String × Tool)) (n : String)
    (h : ∀ t ∈ tools, t.name ≠ n) :
    lookupStr (tools.foldl (fun acc2 t => setStr acc2 t.name t) acc) n =
      lookupStr acc n := by
  induction tools generalizing acc with
  | nil => rfl
  | cons t rest ih =>
    simp only [List.foldl_cons]
    rw [ih _ (fun t' ht' => h t' (by simp [ht']))]
    exact lookupStr_setStr_ne acc t.name n t (h t (by simp))

theorem lookup_foldupsert_unique (tools : List Tool) (acc : List (String × Tool))
    (n : String) (tExt : Tool)
    (h : tools.filter (fun t => t.name == n) = [tExt]) :
    lookupStr (tools.foldl (fun acc2 t => setStr acc2 t.name t) acc) n = some tExt := by
  induction tools generalizing acc with
  | nil => simp at h
  | cons t rest ih =>
    by_cases hn : t.name = n
    · rw [List.filter_cons_of_pos (by simp [hn])] at h
      have ht : t = tExt := by
        have := congrArg (fun l => l.head?) h
        simpa using this
      have hrest : rest.filter (fun t' => t'.name == n) = [] := by
        have := congrArg (fun l => l.tail) h
        simpa using this
      have hnone : ∀ t' ∈ rest, t'.name ≠ n := by
        intro t' ht'
        intro hcon
        have : t' ∈ rest.filter (fun t'' => t''.name == n) :=
          List.mem_filter.mpr ⟨ht', by simp [hcon]⟩
        rw [hrest] at this
        simp at this
      simp only [List.foldl_cons]
      rw [lookup_foldupsert_ne rest _ n hnone]
      subst ht
      rw [← hn]
      exact lookupStr_setStr_self acc t.name t
    · rw [List.filter_cons_of_neg (by simp [hn])] at h
      simp only [List.foldl_cons]
      exact ih _ h

theorem filter_map_values (l : List (String × Tool)) (n : String) (t : Tool)
    (hkeys : ∀ p ∈ l, p.1 = p.2.name)
    (huniq : l.Pairwise (fun a b => a.1 ≠ b.1))
    (hl : lookupStr l n = some t) :
    ((l.map (fun p => p.2)).filter (fun x => x.name == n)) = [t] := by
  induction l with
  | nil => simp [lookupStr] at hl
  | cons p rest ih =>
    obtain ⟨k0, t0⟩ := p
    rw [List.pairwise_cons] at huniq
    obtain ⟨hq, hrest⟩ := huniq
    have hk0 : k0 = t0.name := hkeys (k0, t0) (by simp)
    by_cases hk : k0 = n
    · subst hk
      have ht0 : t0 = t := by
        simpa [lookupStr] using hl
      subst ht0
      have hnone : ((rest.map (fun p => p.2)).filter (fun x => x.name == k0)) = [] := by
        rw [List.filter_eq_nil_iff]
        intro x hx
        obtain ⟨q, hq', hq2⟩ := List.mem_map.mp hx
        have := hkeys q (by simp [hq'])
        have hne := hq q hq'
        simp only [← hq2, ← this]
        simpa using fun hcon => hne (by simp [hcon])
      simp [List.filter_cons, ← hk0, hnone]
    · have hl' : lookupStr rest n = some t := by
        simpa [lookupStr, hk] using hl
      have hres := ih (fun q hq' => hkeys q (by simp [hq'])) hrest hl'
      have hne : (t0.name == n) = false := by
        simp [← hk0, hk]
      simp [List.filter_cons, hne, hres]

/-- Claim C6: when one external tool carries a name, the orchestrator's
merged catalog keeps exactly one entry of that name, the external one,
whatever internal tools share the name — external servers overwrite
internal ones in the merge. -/
theorem C6_collision_external_precedence :
    ∀ (o : MCPOrchestrator) (n : String) (tExt : Tool),
      (o.external.get_all_tools.filter (fun t => t.name == n)) = [tExt] →
      ((o.get_tools).filter (fun t => t.name == n)) = [tExt] ∧
      (∀ t ∈ (o.get_tools).filter (fun t => t.name == n),
        t.server_id = tExt.server_id) := by
  intro o n tExt hext
  unfold MCPOrchestrator.get_tools
  have hkeys1 : ∀ p ∈ (o.router.get_all_tools).foldl
      (fun acc t => setStr acc t.name t) [], p.1 = p.2.name :=
    fold_keyed _ [] (by simp)
  have huniq1 : ((o.router.get_all_tools).foldl
      (fun acc t => setStr acc t.name t) []).Pairwise (fun a b => a.1 ≠ b.1) :=
    fold_uniq _ [] (by simp)
  have hkeys2 := fold_keyed o.external.get_all_tools _ hkeys1
  have huniq2 := fold_uniq o.external.get_all_tools _ huniq1
  have hlook := lookup_foldupsert_unique o.external.get_all_tools
    ((o.router.get_all_tools).foldl (fun acc t => setStr acc t.name t) []) n tExt hext
  have hfil := filter_map_values _ n tExt hkeys2 huniq2 hlook
  refine ⟨hfil, ?_⟩
  intro t ht
  rw [hfil] at ht
  simp at ht
  rw [ht]

theorem lookupStr_updateManaged_self (servers : List (String × ManagedServer))
    (sid : String) (f : ManagedServer → ManagedServer) :
    lookupStr (updateManaged servers sid f) sid = (lookupStr servers sid).map f := by
  induction servers with
  | nil => rfl
  | cons p rest ih =>
    obtain ⟨k0, ms0⟩ := p
    simp only [updateManaged, List.map_cons]
    by_cases hk : k0 = sid
    · subst hk
      rw [if_pos rfl]
      simp [lookupStr]
    · rw [if_neg hk]
      simp only [lookupStr, if_neg hk]
      exact ih

theorem contains_running_after_pin (servers : List (String × ManagedServer)) (sid : String) :
    ((((updateManaged servers sid (fun ms1 =>
        { ms1 with status := { ms1.status with state := .error } })).filter
        (fun p => p.2.status.state == ServerState.running)).map (fun p => p.1)).contains
      sid) = false := by
  induction servers with
  | nil => rfl
  | cons p rest ih =>
    obtain ⟨k0, ms0⟩ := p
    simp only [updateManaged, List.map_cons] at ih ⊢
    by_cases hk : k0 = sid
    · subst hk
      rw [if_pos rfl]
      simp only [List.filter_cons]
      rw [if_neg (show ¬((ServerState.error == ServerState.running) = true) from by decide)]
      exact ih
    · rw [if_neg hk]
      simp only [List.filter_cons]
      by_cases hr : (ms0.status.state == ServerState.running) = true
      · rw [if_pos hr]
        simp only [List.map_cons, List.contains_cons]
        have hne : (sid == k0) = false := by
          simp only [beq_eq_false_iff_ne, ne_eq]
          exact fun hcon => hk hcon.symm
        rw [hne]
        simpa using ih
      · rw [if_neg hr]
        exact ih

/-- Claim C7: the health monitor restarts an unhealthy server only while
its restart count is under `max_restart_attempts`, incrementing the count at
each attempt; at an exhausted budget it pins the server to the ERROR state,
leaves the counts unchanged and drops the server from the running set; a
healthy server only gets a heartbeat; and a successful manual restart
returns the server to RUNNING with its counter reset to zero. -/
theorem C7_restart_budget :
    (∀ (m : ServerManager) (sid : String) (shutErr initErr : Option String) (now rc : Nat)
        (ms : ManagedServer),
      lookupStr m.servers sid = some ms → ms.status.state ≠ .running →
      m.auto_restart = true →
      (lookupStr m.restart_counts sid).getD 0 = rc →
      rc < m.max_restart_attempts →
      m.health_monitor_step sid shutErr initErr now =
        (ServerManager.restart_server
          { m with restart_counts := setStr m.restart_counts sid (rc + 1) }
          sid shutErr initErr now).1) ∧
    (∀ (m : ServerManager) (sid : String) (shutErr initErr : Option String) (now rc : Nat)
        (ms : ManagedServer),
      lookupStr m.servers sid = some ms → ms.status.state ≠ .running →
      m.auto_restart = true →
      (lookupStr m.restart_counts sid).getD 0 = rc →
      ¬ (rc < m.max_restart_attempts) →
      lookupStr (m.health_monitor_step sid shutErr initErr now).servers sid =
        some { ms with status := { ms.status with state := .error } } ∧
      (m.health_monitor_step sid shutErr initErr now).restart_counts = m.restart_counts ∧
      ((m.health_monitor_step sid shutErr initErr now).running_servers.contains sid)
        = false) ∧
    (∀ (m : ServerManager) (sid : String) (shutErr initErr : Option String) (now : Nat)
        (ms : ManagedServer),
      lookupStr m.servers sid = some ms → ms.status.state = .running →
      m.health_monitor_step sid shutErr initErr now =
        { m with servers := updateManaged m.servers sid (fun ms1 =>
          { ms1 with status := { ms1.status with last_heartbeat := some now } }) }) ∧
    (∀ (m : ServerManager) (sid : String) (now : Nat) (ms : ManagedServer),
      lookupStr m.servers sid = some ms →
      ∃ m2, m.restart_server sid Option.none Option.none now = (m2, Option.none) ∧
        (∃ ms2, lookupStr m2.servers sid = some ms2 ∧ ms2.status.state = .running) ∧
        lookupStr m2.restart_counts sid = some 0) := by
  refine ⟨?_, ?_, ?_, ?_⟩
  · intro m sid shutErr initErr now rc ms hlk hstate hauto hgetd hrc
    unfold ServerManager.health_monitor_step ServerManager.check_server_health
    rw [hlk]
    simp [hstate, hauto, hgetd, hrc]
  · intro m sid shutErr initErr now rc ms hlk hstate hauto hgetd hrc
    have heq : m.health_monitor_step sid shutErr initErr now =
        { m with servers := updateManaged m.servers sid (fun ms1 =>
          { ms1 with status := { ms1.status with state := .error } }) } := by
      unfold ServerManager.health_monitor_step ServerManager.check_server_health
      rw [hlk]
      simp [hstate, hauto, hgetd, hrc]
    rw [heq]
    refine ⟨?_, rfl, ?_⟩
    · simp only
      rw [lookupStr_updateManaged_self, hlk]
      rfl
    · exact contains_running_after_pin m.servers sid
  · intro m sid shutErr initErr now ms hlk hstate
    unfold ServerManager.health_monitor_step ServerManager.check_server_health
    rw [hlk]
    simp [hstate]
  · intro m sid now ms hlk
    by_cases hst : ms.status.state = ServerState.running
    · have hshut : m.shutdown_server sid Option.none =
          ({ m with servers := updateManaged m.servers sid (fun ms1 => { ms1 with status := { ms1.status with state := .stopped, pid := Option.none } }) }, Option.none) := by
        unfold ServerManager.shutdown_server
        rw [hlk]
        simp [hst]
      have hlk2 : lookupStr (updateManaged m.servers sid (fun ms1 => { ms1 with status := { ms1.status with state := .stopped, pid := Option.none } })) sid =
          some { ms with status := { ms.status with state := .stopped, pid := Option.none } } := by
        rw [lookupStr_updateManaged_self, hlk]
        rfl
      unfold ServerManager.restart_server
      rw [hshut]
      try dsimp only
      unfold ServerManager.initialize_server
      rw [hlk2]
      dsimp only
      rw [if_neg (show ¬(ServerState.stopped = ServerState.running) from by decide)]
      try dsimp only
      refine ⟨_, rfl, ?_, ?_⟩
      · simp only
        rw [lookupStr_updateManaged_self, lookupStr_updateManaged_self, hlk]
        exact ⟨_, rfl, rfl⟩
      · simp only
        exact lookupStr_setStr_self ..
    · have hshut : m.shutdown_server sid Option.none = (m, Option.none) := by
        unfold ServerManager.shutdown_server
        rw [hlk]
        dsimp only
        rw [if_pos hst]
      unfold ServerManager.restart_server
      rw [hshut]
      try dsimp only
      unfold ServerManager.initialize_server
      rw [hlk]
      dsimp only
      rw [if_neg hst]
      try dsimp only
      refine ⟨_, rfl, ?_, ?_⟩
      · simp only
        rw [lookupStr_updateManaged_self, hlk]
        exact ⟨_, rfl, rfl⟩
      · simp only
        exact lookupStr_setStr_self ..


/-- Path resolution that leaves every path unchanged. -/
def idResolve : String → Option String := fun s => some s

/-- A security manager with the default policy and no confirmation handler. -/
def smDefault : SecurityManager :=
  { policy := {}, confirmation_handler := Option.none, context := {},
    audit_log := [], resolve := idResolve }

/-- A read-level calculator tool with two numeric parameters. -/
def addTool : Tool :=
  { name := "add", parameters :=
      [{ name := "a", type := .number }, { name := "b", type := .number }],
    server_id := "calc", permission_level := "read" }

/-- Handler of `addTool`: integer addition. -/
def addHandler : ToolHandler := fun args =>
  match lookupArg args "a", lookupArg args "b" with
  | some (.int a), some (.int b) => .ok (ToolResult.success_result (toString (a + b)))
  | _, _ => .raises (.exn "bad args")

/-- An internal server registering `addTool`. -/
def calcServer : BaseMCPServer :=
  { server_id := "calc", server_name := "Calculator",
    toolsDict := [("add", { tool := addTool, handler := addHandler })] }

/-- A running status for the calculator server. -/
def calcStatus : ServerStatus := { server_id := "calc", state := .running }

/-- A server manager holding the running calculator server. -/
def mgr1 : ServerManager :=
  { servers := [("calc", { server := calcServer, status := calcStatus })],
    restart_counts := [] }

/-- A router over `mgr1` with the default configuration and empty caches. -/
def router1 : ToolRouter :=
  { server_manager := mgr1, security_manager := smDefault, config := {},
    tool_cache := [], result_cache := [], execution_history := [] }

/-- A well-typed, policy-allowed call of `addTool`. -/
def call1 : ToolCall := { id := "c1", name := "add", arguments := [("a", .int 2), ("b", .int 3)] }

/-- A call of `addTool` with a list-valued (unhashable) argument. -/
def callL : ToolCall := { id := "c2", name := "add", arguments := [("a", .list [.int 1]), ("b", .int 3)] }

/-- A call whose tool name no running server serves. -/
def callU : ToolCall := { id := "c3", name := "nope", arguments := [] }

/-- A write-level tool with two string parameters. -/
def wfTool : Tool :=
  { name := "write_file", parameters :=
      [{ name := "path", type := .string }, { name := "content", type := .string }],
    server_id := "fs", permission_level := "write" }

/-- Handler of `wfTool`: always succeeds. -/
def wfHandler : ToolHandler := fun _ => .ok (ToolResult.success_result "ok")

/-- An internal server registering `wfTool`. -/
def fsServer : BaseMCPServer :=
  { server_id := "fs", server_name := "FS",
    toolsDict := [("write_file", { tool := wfTool, handler := wfHandler })] }

/-- A server manager holding the running filesystem server. -/
def mgr2 : ServerManager :=
  { servers := [("fs", { server := fsServer, status := { server_id := "fs", state := .running } })],
    restart_counts := [] }

/-- A confirmation handler that always answers yes. -/
def yesHandler : ConfirmHandler := fun _ _ => .answer true

/-- A security manager whose confirmation handler always answers yes. -/
def smYes : SecurityManager :=
  { policy := {}, confirmation_handler := some yesHandler, context := {},
    audit_log := [], resolve := idResolve }

/-- A router over `mgr2` with the always-yes security manager. -/
def router2 : ToolRouter :=
  { server_manager := mgr2, security_manager := smYes, config := {},
    tool_cache := [], result_cache := [], execution_history := [] }

/-- A write into a blocked path. -/
def callEtc : ToolCall :=
  { id := "d1", name := "write_file",
    arguments := [("path", .str "/etc/passwd"), ("content", .str "x")] }

/-- A write into an allowed path. -/
def callTmp : ToolCall :=
  { id := "d2", name := "write_file",
    arguments := [("path", .str "/tmp/a"), ("content", .str "x")] }

/-- An executor that returns a fixed success and emits no events. -/
def pureExec : Executor := fun _ => (.ok (ToolResult.success_result "done"), [])

/-- The operation key of `wfTool` applied to `callTmp.arguments`. -/
def wfKey : String := "write_file:'content': 'x','path': '/tmp/a'"

/-- `smYes` after the session has already denied `wfKey`. -/
def smDen : SecurityManager :=
  { smYes with context := { denied_operations := [wfKey] } }

/-- A confirmation handler that raises `asyncio.TimeoutError`. -/
def toHandler : ConfirmHandler := fun _ _ => .raises (.timeoutError "")

/-- `smYes` with the timeout-raising confirmation handler. -/
def smTo : SecurityManager := { smYes with confirmation_handler := some toHandler }

/-- `router2` with the timeout-raising confirmation handler. -/
def router3 : ToolRouter := { router2 with security_manager := smTo }

/-- A confirmation handler that never completes. -/
def hangConfirm : ConfirmHandler := fun _ _ => .hangs

/-- `smYes` with the never-completing confirmation handler. -/
def smHang : SecurityManager := { smYes with confirmation_handler := some hangConfirm }

/-- `router2` with the never-completing confirmation handler. -/
def routerHang : ToolRouter := { router2 with security_manager := smHang }

/-- An external server serving `write_file`, whose client always succeeds. -/
def extWf : ExternalMCPServer :=
  { server_id := "extfs", server_name := "filesystem", running := true,
    toolsDict := [("write_file", { wfTool with server_id := "extfs" })],
    client_call := fun _ _ => .ok { isError := false, content := [.textItem "written"] } }

/-- An external-server manager holding `extWf`. -/
def extMgr : ExternalServerManager := { servers := [("extfs", extWf)] }

/-- An orchestrator whose external manager serves `write_file`. -/
def orch1 : MCPOrchestrator :=
  { router := router2, external := extMgr, initialized := true }

/-- A server manager whose stopped server has exhausted its restart budget. -/
def mgr4 : ServerManager :=
  { servers := [("fs", { server := fsServer, status := { server_id := "fs", state := .stopped } })],
    restart_counts := [("fs", 3)] }

/-- The internal `read_file` tool. -/
def rfTool : Tool := { name := "read_file", server_id := "fs" }

/-- The external `read_file` tool. -/
def rfExt : Tool := { name := "read_file", server_id := "extfs" }

/-- An internal server registering `rfTool`. -/
def fsServer2 : BaseMCPServer :=
  { server_id := "fs", server_name := "FS",
    toolsDict := [("read_file", { tool := rfTool, handler := wfHandler })] }

/-- An external server serving `read_file`. -/
def extRf : ExternalMCPServer :=
  { server_id := "extfs", server_name := "filesystem", running := true,
    toolsDict := [("read_file", rfExt)],
    client_call := fun _ _ => .ok { isError := false, content := [] } }

/-- An orchestrator where `read_file` is served both internally and externally. -/
def orch2 : MCPOrchestrator :=
  { router := { router2 with server_manager :=
      { servers := [("fs", { server := fsServer2, status := { server_id := "fs", state := .running } })],
        restart_counts := [] } },
    external := { servers := [("extfs", extRf)] }, initialized := true }

/-- The confirmation message built for `wfTool` applied to `callTmp.arguments`. -/
def confirmMsgTmp : String :=
  "Tool: write_file\nPermission Level: write\nArguments:\n  path: /tmp/a\n  content: x\n\nDo you want to proceed?"

/-- The events emitted before the never-completing confirmation handler is awaited. -/
def hangEvs : List Event :=
  [Event.securityChecked "write_file", Event.confirmRequested "write_file" confirmMsgTmp]

/-- Claim C2: a well-typed, policy-allowed call of a registered internal tool
is answered with the keyword-binding `TypeError` as an execution-error result
and the registered handler never runs, although calling the provider directly
with the same arguments succeeds. -/
theorem C2_kwargs_binding_breaks_dispatch :
    (router1.execute_tool call1 Option.none 0).result? =
      some (ToolResult.error_result
        "Execution error: call_tool() got an unexpected keyword argument 'a'") ∧
    ((router1.execute_tool call1 Option.none 0).events.any Event.isHandlerRan) = false ∧
    calcServer.call_tool "add" call1.arguments =
      (.ok (ToolResult.success_result "5"), [Event.handlerRan "add" call1.arguments]) :=
  ⟨rfl, rfl, rfl⟩

/-- Witness for C5 at `smYes`, `wfTool` and `callTmp.arguments`: the fresh
fingerprint triggers a confirmation request and the executor runs. -/
theorem C5_confirm_semantics_witness :
    ((smYes.execute_with_security wfTool callTmp.arguments pureExec).events.any
      Event.isConfirmRequested) = true ∧
    ((smYes.execute_with_security wfTool callTmp.arguments pureExec).events.any
      Event.isExecutorInvoked) = true := by
  have h := (C5_confirm_semantics smYes wfTool callTmp.arguments wfKey rfl rfl
    (by decide) (by decide) rfl pureExec rfl).2.1 rfl yesHandler rfl (fun _ => rfl)
  exact ⟨h.1, h.2.1⟩

/-- Witness for C4 at `smDen`, whose context has already denied `wfKey`. -/
theorem C4_denied_memoization_witness :
    smDen.execute_with_security wfTool callTmp.arguments pureExec =
      .ret (smDen.audit_log_operation wfTool callTmp.arguments "denied"
          (some "Operation previously denied in this session"))
        [Event.securityChecked "write_file", Event.audited "denied"]
        (ToolResult.error_result
          "Permission denied: Operation previously denied in this session") :=
  (C4_denied_memoization.1 smDen wfTool callTmp.arguments pureExec wfKey rfl rfl).1

/-- Witness for C10 at `router1` and the list-valued arguments of `callL`. -/
theorem C10_unhashable_arguments_witness :
    router1.execute_tool callL Option.none 0 =
      .ret (router1.find_tool "add").1 [Event.securityChecked "add"]
        (ToolResult.error_result "Execution error: unhashable type: 'list'") :=
  (C10_unhashable_arguments router1 callL Option.none 0 ((router1.find_tool "add").1)
    "calc" addTool calcServer ("a", PyValue.list [PyValue.int 1]) rfl rfl rfl rfl).2

/-- Witness for C8 at `router1` and the unknown tool name of `callU`. -/
theorem C8_unknown_tool_skips_security_witness :
    router1.execute_tool callU Option.none 0 =
      .ret router1.refresh_tool_cache []
        (ToolResult.error_result "Tool 'nope' not found in any running server") := by
  refine (C8_unknown_tool_skips_security router1 callU Option.none 0 rfl ?_).1
  intro sid server hsv t ht
  by_cases hsid : "calc" = sid
  · subst hsid
    simp [router1, mgr1, ServerManager.get_server, lookupStr] at hsv
    subst hsv
    simp [calcServer, BaseMCPServer.tools] at ht
    subst ht
    decide
  · simp [router1, mgr1, ServerManager.get_server, lookupStr, hsid] at hsv

/-- Witness for C9 at `router3`, whose confirmation handler raises
`asyncio.TimeoutError`: the raised exception becomes a timeout-message
result, not an execution-error one. -/
theorem C9_amended_exception_totality_witness :
    (router3.execute_tool callTmp Option.none 0).result? =
      some (ToolResult.error_result "Tool 'write_file' timed out after 60.0s") := by
  rw [(C9_amended_exception_totality router3 callTmp Option.none 0
    ((router3.find_tool "write_file").1) "fs" wfTool fsServer rfl rfl rfl).1
    _ _ (PyExn.timeoutError "") rfl]
  rfl

/-- Refutation of the unamended C9 reading: a raised `asyncio.TimeoutError`
produces a message that does not begin with the execution-error prefix. -/
theorem C9_counterexample :
    (router3.execute_tool callTmp Option.none 0).result? =
      some (ToolResult.error_result "Tool 'write_file' timed out after 60.0s") ∧
    strStarts "Tool 'write_file' timed out after 60.0s" "Execution error:" = false :=
  ⟨rfl, rfl⟩

/-- Witness for C3 at `routerHang`, whose confirmation handler never
completes: the dispatch diverges and no timeout result is produced. -/
theorem C3_timeout_never_enforced_witness :
    routerHang.execute_tool callTmp Option.none 0 = Outcome.hangs hangEvs :=
  C3_timeout_never_enforced.2 routerHang callTmp Option.none 0
    ((routerHang.find_tool "write_file").1) "fs" wfTool fsServer hangEvs rfl rfl rfl rfl

/-- Witness for C1 at `orch1`, where `write_file` is served externally: the
orchestrator bypasses the security gate entirely. -/
theorem C1_amended_gate_internal_only_witness :
    ((orch1.execute_tool callEtc Option.none 0).events.any Event.isSecurityChecked) = false ∧
    ((orch1.execute_tool callEtc Option.none 0).events.any Event.isConfirmRequested) = false :=
  C1_amended_gate_internal_only.2 orch1 callEtc Option.none 0 extWf rfl rfl

/-- Refutation of the unamended C1 reading: an externally served write into
`/etc/passwd` succeeds with no security check and no confirmation, although
the path is a blocked one. -/
theorem C1_counterexample :
    ((orch1.execute_tool callEtc Option.none 0).result?.map ToolResult.success) = some true ∧
    ((orch1.execute_tool callEtc Option.none 0).events.any Event.isSecurityChecked) = false ∧
    ((orch1.execute_tool callEtc Option.none 0).events.any Event.isConfirmRequested) = false ∧
    smYes.is_blocked_path "/etc/passwd" = true :=
  ⟨rfl, rfl, rfl, rfl⟩

/-- Witness for C6 at `orch2`, where `read_file` is served both internally
and externally: the merged catalog keeps the external entry. -/
theorem C6_collision_external_precedence_witness :
    (orch2.get_tools.filter (fun t => t.name == "read_file")) = [rfExt] :=
  (C6_collision_external_precedence orch2 "read_file" rfExt rfl).1

/-- Witness for C7 at `mgr4`, whose stopped server has exhausted its restart
budget: after the monitor step the server is not running. -/
theorem C7_restart_budget_witness :
    ((mgr4.health_monitor_step "fs" Option.none Option.none 5).running_servers.contains "fs")
      = false :=
  (C7_restart_budget.2.1 mgr4 "fs" Option.none Option.none 5 3
    { server := fsServer, status := { server_id := "fs", state := .stopped } }
    rfl (by decide) rfl rfl (by decide)).2.2

end LlmOs
